import Mathlib

/-!
# xshmfence: the shared-memory fence of libxshmfence

A shallow embedding of `src/xshmfence.c`.  The fence is one `int32_t` word in a
shared mapping.  The code only ever compares the word with the constants
`-1`, `0`, `1` and stores those constants, so the word is modelled as an `Int`
and no arithmetic (hence no overflow) is involved.

The futex calls `futex_wait` and `futex_wake` are declared in the header
`xshmfenceint.h`; they are system calls whose results the code cannot
predict, so their results are parameters of the embedding.
-/

namespace Xshmfence

/-! ## Data model -/

/-- The fence: `struct xshmfence { int32_t v; }`. -/
structure xshmfence where
  v : Int
deriving DecidableEq, Repr

/-- The untriggered state with nobody waiting (the literal `0` of the source). -/
def UNSET : Int := 0

/-- The untriggered state with a waiter committed to blocking (the literal `-1`). -/
def UNSET_PARKED : Int := -1

/-- The triggered state (the literal `1` of the source). -/
def SET : Int := 1

/-- The value of `EWOULDBLOCK` in the Linux `<errno.h>` (the same number as `EAGAIN`). -/
def EWOULDBLOCK : Int := 11

/-- The value of `EINTR` in the Linux `<errno.h>`. -/
def EINTR : Int := 4

/-- What one call of `futex_wait` gives back: its return value and the value of
`errno` after the call. -/
structure WaitOutcome where
  ret : Int
  errno : Int
deriving DecidableEq, Repr

/-- The primitive operations a call performs on the fence word, in program order. -/
inductive Event where
  /-- A call of `__sync_val_compare_and_swap(&f->v, oldval, newval)` or of its `bool` variant;
  `observed` is the value the word held. -/
  | cas (observed oldval newval : Int)
  /-- A call of `atomic_store(&f->v, val)`. -/
  | store (val : Int)
  /-- A call of `atomic_fetch(&f->v)`, which read `observed`. -/
  | load (observed : Int)
  /-- A call of `futex_wake(&f->v)`, which returned `result`. -/
  | wake (result : Int)
  /-- A call of `futex_wait(&f->v, expected)`, which came back with outcome `w`. -/
  | wait (expected : Int) (w : WaitOutcome)
deriving DecidableEq, Repr

/-- The outcome of a call: the returned value, the fence afterwards and the
primitive operations performed. -/
structure Result (α : Type) where
  ret : α
  fence : xshmfence
  trace : List Event
deriving Repr

/-! ## Atomic primitives -/

/-- The GCC builtin `__sync_val_compare_and_swap(&f->v, oldval, newval)`: returns
the value the word held and stores `newval` when that value was `oldval`. -/
def sync_val_compare_and_swap (f : xshmfence) (oldval newval : Int) : Int × xshmfence :=
  (f.v, if f.v = oldval then xshmfence.mk newval else f)

/-- The GCC builtin `__sync_bool_compare_and_swap(&f->v, oldval, newval)`: returns
whether the word held `oldval`, and stores `newval` in that case. -/
def sync_bool_compare_and_swap (f : xshmfence) (oldval newval : Int) : Bool × xshmfence :=
  (decide (f.v = oldval), if f.v = oldval then xshmfence.mk newval else f)

/-- Modelled from the spec: `atomic_store` is declared in `xshmfenceint.h`, which is
not among the sources; the spec describes it as a sequentially consistent store
to the cell ("store SET unconditionally"). -/
def atomic_store (_f : xshmfence) (val : Int) : xshmfence :=
  xshmfence.mk val

/-- Modelled from the spec: `atomic_fetch` is declared in `xshmfenceint.h`, which is
not among the sources; the spec describes it as "a single atomic load of the
Fence State". -/
def atomic_fetch (f : xshmfence) : Int :=
  f.v

/-! ## The four operations, called with no other party touching the word -/

/-- The function `xshmfence_trigger` (source lines 42-51).  `wake` is the value
`futex_wake(&f->v)` returns if it is called. -/
def xshmfence_trigger (wake : Int) (f : xshmfence) : Result Int :=
  let r := sync_val_compare_and_swap f 0 1
  if r.1 = -1 then
    let f2 := atomic_store r.2 1
    if wake < 0 then
      ⟨-1, f2, [Event.cas r.1 0 1, Event.store 1, Event.wake wake]⟩
    else
      ⟨0, f2, [Event.cas r.1 0 1, Event.store 1, Event.wake wake]⟩
  else
    ⟨0, r.2, [Event.cas r.1 0 1]⟩

/-- Puts the events `es` in front of the trace of `r`. -/
def Result.after {α : Type} (es : List Event) (r : Result α) : Result α :=
  ⟨r.ret, r.fence, es ++ r.trace⟩

/-- The function `xshmfence_await` (source lines 63-73).  The list holds the outcomes
of the successive `futex_wait` calls.  The result is `none` when the loop
needs another outcome and the list has none left: the caller is still inside
`futex_wait`. -/
def xshmfence_await : List WaitOutcome → xshmfence → Result (Option Int)
  | [], f =>
    let r := sync_val_compare_and_swap f 0 (-1)
    if r.1 ≠ 1 then
      ⟨none, r.2, [Event.cas r.1 0 (-1)]⟩
    else
      ⟨some 0, r.2, [Event.cas r.1 0 (-1)]⟩
  | w :: ws, f =>
    let r := sync_val_compare_and_swap f 0 (-1)
    if r.1 ≠ 1 then
      if w.ret ≠ 0 then
        if w.errno ≠ EWOULDBLOCK then
          ⟨some (-1), r.2, [Event.cas r.1 0 (-1), Event.wait (-1) w]⟩
        else
          (xshmfence_await ws r.2).after [Event.cas r.1 0 (-1), Event.wait (-1) w]
      else
        (xshmfence_await ws r.2).after [Event.cas r.1 0 (-1), Event.wait (-1) w]
    else
      ⟨some 0, r.2, [Event.cas r.1 0 (-1)]⟩

/-- The function `xshmfence_query` (source lines 81-85); the C comparison yields
`1` or `0`. -/
def xshmfence_query (f : xshmfence) : Result Int :=
  ⟨if atomic_fetch f = 1 then 1 else 0, f, [Event.load (atomic_fetch f)]⟩

/-- The function `xshmfence_reset` (source lines 94-98); the result of the
compare-and-swap is discarded. -/
def xshmfence_reset (f : xshmfence) : Result Unit :=
  ⟨(), (sync_bool_compare_and_swap f 1 0).2, [Event.cas f.v 1 0]⟩

/-! ## Atomic steps and interleavings

Each operation is a short sequence of atomic steps on the shared word.  A
program counter names the next step of a call in progress. -/

/-- The four operations on a mapped fence. -/
inductive Op where
  | trigger
  | await
  | query
  | reset
deriving DecidableEq, Repr

/-- The next atomic step of a call in progress, named after the source line it
executes, or the fact that the call has returned. -/
inductive Pc where
  /-- The compare-and-swap of `xshmfence_trigger` (line 45). -/
  | trigger_cas
  /-- The `atomic_store` of `xshmfence_trigger` (line 46). -/
  | trigger_store
  /-- The `futex_wake` of `xshmfence_trigger` (line 47). -/
  | trigger_wake
  /-- The compare-and-swap of `xshmfence_await` (line 66). -/
  | await_cas
  /-- The `futex_wait` of `xshmfence_await` (line 67). -/
  | await_wait
  /-- The `atomic_fetch` of `xshmfence_query` (line 84). -/
  | query_load
  /-- The compare-and-swap of `xshmfence_reset` (line 97). -/
  | reset_cas
  /-- The call has returned the integer `r`. -/
  | returned (r : Int)
  /-- The call (of `xshmfence_reset`, which returns nothing) has returned. -/
  | finished
deriving DecidableEq, Repr

/-- The first step of each operation. -/
def Op.entry : Op → Pc
  | Op.trigger => Pc.trigger_cas
  | Op.await => Pc.await_cas
  | Op.query => Pc.query_load
  | Op.reset => Pc.reset_cas

/-- The results the kernel hands to a step, used when the step is a futex call:
the return value of `futex_wake` and the outcome of `futex_wait`. -/
structure Oracle where
  wake : Int
  wait : WaitOutcome
deriving DecidableEq, Repr

/-- One atomic step of a call: the next program counter, the fence afterwards
and the primitive operation performed (none once the call has returned). -/
def Pc.step (o : Oracle) (f : xshmfence) : Pc → Pc × xshmfence × Option Event
  | Pc.trigger_cas =>
    let r := sync_val_compare_and_swap f 0 1
    (if r.1 = -1 then Pc.trigger_store else Pc.returned 0, r.2, some (Event.cas r.1 0 1))
  | Pc.trigger_store =>
    (Pc.trigger_wake, atomic_store f 1, some (Event.store 1))
  | Pc.trigger_wake =>
    (if o.wake < 0 then Pc.returned (-1) else Pc.returned 0, f, some (Event.wake o.wake))
  | Pc.await_cas =>
    let r := sync_val_compare_and_swap f 0 (-1)
    (if r.1 ≠ 1 then Pc.await_wait else Pc.returned 0, r.2, some (Event.cas r.1 0 (-1)))
  | Pc.await_wait =>
    (if o.wait.ret ≠ 0 then
        (if o.wait.errno ≠ EWOULDBLOCK then Pc.returned (-1) else Pc.await_cas)
      else Pc.await_cas,
     f, some (Event.wait (-1) o.wait))
  | Pc.query_load =>
    (Pc.returned (if atomic_fetch f = 1 then 1 else 0), f, some (Event.load (atomic_fetch f)))
  | Pc.reset_cas =>
    (Pc.finished, (sync_bool_compare_and_swap f 1 0).2, some (Event.cas f.v 1 0))
  | Pc.returned r => (Pc.returned r, f, none)
  | Pc.finished => (Pc.finished, f, none)

/-- Whether the call has returned. -/
def Pc.isDone : Pc → Bool
  | Pc.returned _ => true
  | Pc.finished => true
  | _ => false

/-- What surrounds one atomic step of a call: `others` is the value other
parties left in the word since the call's previous step (`none` when they
left it alone), `oracle` the kernel's answers should the step be a futex
call. -/
structure Tick where
  others : Option Int
  oracle : Oracle
deriving DecidableEq, Repr

/-- The word as the call finds it at its next step. -/
def Tick.disturb (t : Tick) (f : xshmfence) : xshmfence :=
  match t.others with
  | none => f
  | some x => xshmfence.mk x

/-- The state of one call after some of its steps: where it stands, the fence
right after its latest step, and the primitive operations it performed. -/
structure Run where
  pc : Pc
  fence : xshmfence
  trace : List Event
deriving DecidableEq, Repr

/-- Runs one call from `pc`, one atomic step per tick, with other parties
rewriting the word between its steps as the ticks say.  The run ends when
the call returns or the ticks run out. -/
def Pc.run : Pc → xshmfence → List Tick → Run
  | pc, f, [] => ⟨pc, f, []⟩
  | pc, f, t :: ts =>
    if pc.isDone then ⟨pc, f, []⟩
    else
      let s := pc.step t.oracle (t.disturb f)
      let r := Pc.run s.1 s.2.1 ts
      ⟨r.pc, r.fence, s.2.2.toList ++ r.trace⟩

/-- The value observed by the last compare-and-swap of a trace, if there is one. -/
def lastCas : List Event → Option Int
  | [] => none
  | e :: es =>
    match lastCas es with
    | some x => some x
    | none =>
      match e with
      | Event.cas observed _ _ => some observed
      | _ => none

/-- The fence shared by a number of calls in progress, with the log of the
primitive operations performed so far, each tagged with the index of its call. -/
structure System where
  fence : xshmfence
  calls : List Pc
  log : List (Nat × Event)
deriving DecidableEq, Repr

/-- What can happen next in the system: some party starts a call of `op`, or
call number `i` performs its next atomic step (with the kernel's answers `o`
should that step be a futex call). -/
inductive Action where
  | call (op : Op)
  | step (i : Nat) (o : Oracle)
deriving DecidableEq, Repr

/-- The effect of one action on the system.  A step of a call that does not
exist leaves the system as it is. -/
def System.act (s : System) : Action → System
  | Action.call op => ⟨s.fence, s.calls ++ [op.entry], s.log⟩
  | Action.step i o =>
    match s.calls[i]? with
    | none => s
    | some pc =>
      let r := pc.step o s.fence
      ⟨r.2.1, s.calls.set i r.1, s.log ++ (r.2.2.toList.map (fun e => (i, e)))⟩

/-- Performs the actions of a schedule from left to right. -/
def System.exec (s : System) (as : List Action) : System :=
  as.foldl System.act s

/-- Whether an operation is one an await call performs: a compare-and-swap from 0
to -1, or a wait for the value -1. -/
def Event.isAwaitOp : Event → Bool
  | Event.cas _ oldval newval => oldval == 0 && newval == -1
  | Event.wait expected _ => expected == -1
  | _ => false

/-- The ticks of a call of `xshmfence_await` that nobody disturbs and whose
successive `futex_wait` calls come back with the given outcomes: two steps for
each turn of the loop, and one for the compare-and-swap that follows. -/
def awaitTicks : List WaitOutcome → List Tick
  | [] => [⟨none, ⟨0, ⟨0, 0⟩⟩⟩]
  | w :: ws => ⟨none, ⟨0, w⟩⟩ :: ⟨none, ⟨0, w⟩⟩ :: awaitTicks ws

/-- Where an await call stands, given what `xshmfence_await` reports: returned, or
still inside `futex_wait`. -/
def awaitPc : Option Int → Pc
  | none => Pc.await_wait
  | some r => Pc.returned r

/-- Whether an operation is a call of `futex_wake`. -/
def Event.isWake : Event → Bool
  | Event.wake _ => true
  | _ => false

/-! ## The shared-memory segment -/

/-- The system calls of the allocator and of the mapper, in program order, each with
the value it returned where the code looks at it or could. -/
inductive SysCall where
  /-- The call `open(SHMDIR, O_TMPFILE|O_RDWR|O_CLOEXEC|O_EXCL, 0666)`. -/
  | open_tmpfile (result : Int)
  /-- The call `mkstemp(template)`. -/
  | mkstemp (result : Int)
  /-- The call `unlink(template)`. -/
  | unlink
  /-- The call `ftruncate(fd, length)`. -/
  | ftruncate (fd : Int) (length : Nat) (result : Int)
  /-- The call `mmap(NULL, length, PROT_READ|PROT_WRITE, MAP_SHARED, fd, 0)`. -/
  | mmap (length : Nat) (fd : Int) (result : Int)
  /-- The call `close(fd)`. -/
  | close (fd : Int)
deriving DecidableEq, Repr

/-- The value of `sizeof (struct xshmfence)`: one `int32_t`. -/
def sizeof_xshmfence : Nat := 4

/-- What the allocator meets: whether `O_TMPFILE` is defined where the file is
compiled, and what `open`, `mkstemp` and `ftruncate` return when called. -/
structure AllocEnv where
  has_O_TMPFILE : Bool
  open_result : Int
  mkstemp_result : Int
  ftruncate_result : Int
deriving DecidableEq, Repr

/-- The function `xshmfence_alloc_shm` (source lines 109-127): the returned value and the
system calls made.  The block with `mkstemp` runs when `O_TMPFILE` is not
defined or `open` returned a negative value; the value `ftruncate` returns is
not looked at. -/
def xshmfence_alloc_shm (env : AllocEnv) : Int × List SysCall :=
  let opened := if env.has_O_TMPFILE = true then [SysCall.open_tmpfile env.open_result] else []
  if env.has_O_TMPFILE = false ∨ env.open_result < 0 then
    let fd := env.mkstemp_result
    if fd < 0 then
      (fd, opened ++ [SysCall.mkstemp fd])
    else
      (fd, opened ++ [SysCall.mkstemp fd, SysCall.unlink,
        SysCall.ftruncate fd sizeof_xshmfence env.ftruncate_result])
  else
    let fd := env.open_result
    (fd, opened ++ [SysCall.ftruncate fd sizeof_xshmfence env.ftruncate_result])

/-- The effect of one system call on the size of the object behind the descriptor: a
call of `ftruncate` that returns 0 sets the size to its `length`, any other call
leaves it. -/
def SysCall.resize (size : Nat) : SysCall → Nat
  | SysCall.ftruncate _ length result => if result = 0 then length else size
  | _ => size

/-- The size of the object behind the descriptor after the given calls; a file just
created by `open` with `O_TMPFILE` or by `mkstemp` is empty. -/
def objectSize (cs : List SysCall) : Nat :=
  cs.foldl SysCall.resize 0

/-- The value of `MAP_FAILED` in `<sys/mman.h>`, `(void *) -1`; addresses are modelled
as integers. -/
def MAP_FAILED : Int := -1

/-- The function `xshmfence_map_shm` (source lines 137-147).  `mapped` is what `mmap`
returns; the result is the returned pointer (0 for the null pointer) and the
system calls made. -/
def xshmfence_map_shm (mapped : Int) (fd : Int) : Int × List SysCall :=
  let addr := mapped
  if addr = MAP_FAILED then
    (0, [SysCall.mmap sizeof_xshmfence fd addr, SysCall.close fd])
  else
    (addr, [SysCall.mmap sizeof_xshmfence fd addr])

/-! ## Interleavings with the futex calls as the spec describes them

In `System` a futex call may come back with any result.  The definitions below
fix what the two calls do, after the spec: `futex_wait(&f->v, -1)` blocks the
caller only if the word is -1 at the call and fails with `EWOULDBLOCK`
otherwise; `futex_wake(&f->v)` releases every caller blocked on the word and
returns how many there were. -/

/-- A call in progress together with whether it is parked, that is, blocked inside
`futex_wait`. -/
structure Party where
  pc : Pc
  parked : Bool
deriving DecidableEq, Repr

/-- The fence and the calls in progress on it. -/
structure FutexSystem where
  fence : xshmfence
  parties : List Party
deriving DecidableEq, Repr

/-- What can happen next: some party starts a call of `op`; call number `i` performs
its next atomic step; or the `futex_wait` of the parked call number `i` comes
back with outcome `w` although nobody called `futex_wake` (a signal, a
spurious wake-up). -/
inductive FutexAction where
  | call (op : Op)
  | step (i : Nat)
  | interrupt (i : Nat) (w : WaitOutcome)
deriving DecidableEq, Repr

/-- Modelled from the spec: `futex_wait` is declared in `xshmfenceint.h`, which is not
among the sources.  A parked call whose wait comes back with outcome `w` goes on
from its `futex_wait` step with that outcome; a call that is not parked is left
alone. -/
def Party.resume (w : WaitOutcome) (f : xshmfence) (p : Party) : Party :=
  if p.parked = true then ⟨(p.pc.step ⟨0, w⟩ f).1, false⟩ else p

/-- Modelled from the spec: `futex_wait` and `futex_wake` are declared in
`xshmfenceint.h`, which is not among the sources.  The next atomic step of the
party `p`, which is call number `i`.  A parked party takes no step.  At its
`futex_wait` step a party parks if the word equals the expected value -1 and
otherwise goes on with the outcome "failed with `EWOULDBLOCK`".  At its
`futex_wake` step a party releases every parked party, each of whose waits
returns 0, and goes on with the number of parties released.  Every other step
is the step of `Pc.step`. -/
def FutexSystem.stepParty (s : FutexSystem) (i : Nat) (p : Party) : FutexSystem :=
  if p.parked = true then s
  else
    match p.pc with
    | Pc.await_wait =>
      if s.fence.v = -1 then
        ⟨s.fence, s.parties.set i ⟨Pc.await_wait, true⟩⟩
      else
        ⟨s.fence, s.parties.set i ⟨(Pc.await_wait.step ⟨0, ⟨-1, EWOULDBLOCK⟩⟩ s.fence).1, false⟩⟩
    | Pc.trigger_wake =>
      ⟨s.fence,
        (s.parties.set i
          ⟨(Pc.trigger_wake.step ⟨(s.parties.countP (fun q => q.parked) : Nat), ⟨0, 0⟩⟩
            s.fence).1, false⟩).map (Party.resume ⟨0, 0⟩ s.fence)⟩
    | pc =>
      ⟨(pc.step ⟨0, ⟨0, 0⟩⟩ s.fence).2.1,
        s.parties.set i ⟨(pc.step ⟨0, ⟨0, 0⟩⟩ s.fence).1, false⟩⟩

/-- The effect of one action.  A step or an interrupt of a call that does not exist,
and an interrupt of a call that is not parked, leave the system as it is. -/
def FutexSystem.act (s : FutexSystem) : FutexAction → FutexSystem
  | FutexAction.call op => ⟨s.fence, s.parties ++ [⟨op.entry, false⟩]⟩
  | FutexAction.step i =>
    match s.parties[i]? with
    | none => s
    | some p => s.stepParty i p
  | FutexAction.interrupt i w =>
    match s.parties[i]? with
    | none => s
    | some p => ⟨s.fence, s.parties.set i (p.resume w s.fence)⟩

/-- Performs the actions of a schedule from left to right. -/
def FutexSystem.exec (s : FutexSystem) (as : List FutexAction) : FutexSystem :=
  as.foldl FutexSystem.act s

/-- The fence `xshmfence_trigger` leaves behind, whatever `futex_wake` returns. -/
theorem trigger_fence (wake : Int) (f : xshmfence) :
    (xshmfence_trigger wake f).fence.v = if f.v = 0 ∨ f.v = -1 then 1 else f.v := by
  unfold xshmfence_trigger sync_val_compare_and_swap atomic_store
  by_cases h0 : f.v = 0
  · simp [h0]
  · by_cases h1 : f.v = -1
    · by_cases hw : wake < 0 <;> simp [h1, hw]
    · simp [h0, h1]

/-- The value `xshmfence_trigger` returns. -/
theorem trigger_ret (wake : Int) (f : xshmfence) :
    (xshmfence_trigger wake f).ret = if f.v = -1 ∧ wake < 0 then -1 else 0 := by
  unfold xshmfence_trigger sync_val_compare_and_swap atomic_store
  by_cases h1 : f.v = -1
  · by_cases hw : wake < 0 <;> simp [h1, hw]
  · simp [h1]

/-- The fence `xshmfence_reset` leaves behind. -/
theorem reset_fence (f : xshmfence) :
    (xshmfence_reset f).fence.v = if f.v = 1 then 0 else f.v := by
  unfold xshmfence_reset sync_bool_compare_and_swap
  by_cases h : f.v = 1 <;> simp [h]

/-- The value `xshmfence_query` returns. -/
theorem query_ret (f : xshmfence) :
    (xshmfence_query f).ret = if f.v = 1 then 1 else 0 := rfl

/-- C2: for a fence in one of the states UNSET, UNSET_PARKED or SET, when
`xshmfence_trigger` returns 0 the fence afterwards is SET and a query made
right after returns 1. -/
theorem trigger_success_sets (wake : Int) (f : xshmfence)
    (hv : f.v = UNSET ∨ f.v = UNSET_PARKED ∨ f.v = SET)
    (_hret : (xshmfence_trigger wake f).ret = 0) :
    (xshmfence_trigger wake f).fence.v = SET ∧
      (xshmfence_query (xshmfence_trigger wake f).fence).ret = 1 := by
  have hf : (xshmfence_trigger wake f).fence.v = 1 := by
    rw [trigger_fence]
    rcases hv with h | h | h <;> simp [h, UNSET, UNSET_PARKED, SET]
  exact ⟨hf, by rw [query_ret, hf]; rfl⟩

/-- Witness of C2 at a parked fence whose wake call reports one waiter woken. -/
theorem trigger_success_sets_witness :
    (xshmfence_trigger 1 ⟨-1⟩).fence.v = SET ∧
      (xshmfence_query (xshmfence_trigger 1 ⟨-1⟩).fence).ret = 1 :=
  trigger_success_sets 1 ⟨-1⟩ (Or.inr (Or.inl rfl)) (by decide)

/-- C3: on a fence that is SET, `xshmfence_await` returns 0 at once, whatever the
wait primitive would have answered: its only operation is the compare-and-swap
that observes SET, it makes no `futex_wait` call, and the fence is unchanged. -/
theorem await_set_returns (ws : List WaitOutcome) (f : xshmfence) (h : f.v = SET) :
    (xshmfence_await ws f).ret = some 0 ∧
      (xshmfence_await ws f).fence = f ∧
      (xshmfence_await ws f).trace = [Event.cas SET 0 (-1)] ∧
      (∀ x w, Event.wait x w ∉ (xshmfence_await ws f).trace) ∧
      (∀ o, Pc.await_cas.step o f = (Pc.returned 0, f, some (Event.cas SET 0 (-1)))) := by
  have h1 : f.v = 1 := h
  have key : xshmfence_await ws f = ⟨some 0, f, [Event.cas SET 0 (-1)]⟩ := by
    cases ws <;> simp [xshmfence_await, sync_val_compare_and_swap, h1, SET]
  refine ⟨by rw [key], by rw [key], by rw [key], ?_, ?_⟩
  · intro x w
    rw [key]
    simp
  · intro o
    simp [Pc.step, sync_val_compare_and_swap, h1, SET]

/-- Witness of C3: a SET fence and a wait primitive that would only report errors. -/
theorem await_set_returns_witness :
    (xshmfence_await [⟨-1, 22⟩] ⟨1⟩).ret = some 0 ∧
      (xshmfence_await [⟨-1, 22⟩] ⟨1⟩).fence = ⟨1⟩ ∧
      (xshmfence_await [⟨-1, 22⟩] ⟨1⟩).trace = [Event.cas SET 0 (-1)] ∧
      (∀ x w, Event.wait x w ∉ (xshmfence_await [⟨-1, 22⟩] ⟨1⟩).trace) ∧
      (∀ o, Pc.await_cas.step o ⟨1⟩ = (Pc.returned 0, ⟨1⟩, some (Event.cas SET 0 (-1)))) :=
  await_set_returns [⟨-1, 22⟩] ⟨1⟩ rfl

/-- One turn of the loop of `xshmfence_await` whose `futex_wait` call comes back
without a fatal error: the call goes on as a fresh call on the fence the
compare-and-swap left. -/
theorem await_cons_retry (w : WaitOutcome) (ws : List WaitOutcome) (f : xshmfence)
    (hf : f.v ≠ 1) (hw : w.ret = 0 ∨ w.errno = EWOULDBLOCK) :
    xshmfence_await (w :: ws) f =
      (xshmfence_await ws (sync_val_compare_and_swap f 0 (-1)).2).after
        [Event.cas f.v 0 (-1), Event.wait (-1) w] := by
  rw [xshmfence_await]
  have h1 : (sync_val_compare_and_swap f 0 (-1)).1 = f.v := rfl
  simp only [h1, ne_eq, hf, not_false_eq_true, if_true]
  by_cases hr : w.ret = 0
  · simp [hr]
  · have he : w.errno = EWOULDBLOCK := hw.resolve_left hr
    simp [hr, he]

/-- One turn of the loop of `xshmfence_await` whose `futex_wait` call fails with an
errno other than `EWOULDBLOCK`: the call returns -1 there. -/
theorem await_cons_fatal (w : WaitOutcome) (ws : List WaitOutcome) (f : xshmfence)
    (hf : f.v ≠ 1) (hr : w.ret ≠ 0) (he : w.errno ≠ EWOULDBLOCK) :
    xshmfence_await (w :: ws) f =
      ⟨some (-1), (sync_val_compare_and_swap f 0 (-1)).2,
        [Event.cas f.v 0 (-1), Event.wait (-1) w]⟩ := by
  rw [xshmfence_await]
  have h1 : (sync_val_compare_and_swap f 0 (-1)).1 = f.v := rfl
  simp [h1, hf, hr, he]

/-- With a wait primitive whose every failure carries `EWOULDBLOCK`, the call never
returns -1. -/
theorem await_no_error (ws : List WaitOutcome) :
    ∀ f : xshmfence, (∀ w ∈ ws, w.ret ≠ 0 → w.errno = EWOULDBLOCK) →
      (xshmfence_await ws f).ret ≠ some (-1) := by
  induction ws with
  | nil =>
    intro f _
    by_cases hf : f.v = 1 <;> simp [xshmfence_await, sync_val_compare_and_swap, hf]
  | cons w ws ih =>
    intro f hall
    by_cases hf : f.v = 1
    · simp [xshmfence_await, sync_val_compare_and_swap, hf]
    · have hw : w.ret = 0 ∨ w.errno = EWOULDBLOCK := by
        by_cases hr : w.ret = 0
        · exact Or.inl hr
        · exact Or.inr (hall w (List.mem_cons_self w ws) hr)
      rw [await_cons_retry w ws f hf hw]
      exact ih _ (fun x hx => hall x (List.mem_cons_of_mem w hx))

/-- C5 (as the claim states it, refuted): a `futex_wait` failure with errno `EINTR`
is surfaced.  Called on an UNSET fence, `xshmfence_await` returns -1 right after
the failed wait, although the wait primitive would have succeeded on a retry;
there is no second compare-and-swap. -/
theorem await_eintr_surfaces :
    (xshmfence_await [⟨-1, EINTR⟩, ⟨0, 0⟩] ⟨UNSET⟩).ret = some (-1) ∧
      (xshmfence_await [⟨-1, EINTR⟩, ⟨0, 0⟩] ⟨UNSET⟩).trace =
        [Event.cas UNSET 0 (-1), Event.wait (-1) ⟨-1, EINTR⟩] ∧
      Pc.await_wait.step ⟨0, ⟨-1, EINTR⟩⟩ ⟨UNSET_PARKED⟩ =
        (Pc.returned (-1), ⟨UNSET_PARKED⟩, some (Event.wait (-1) ⟨-1, EINTR⟩)) := by
  decide

/-- C5 (amended): a `futex_wait` failure with errno `EWOULDBLOCK` is never surfaced.
After such a failure the call loops back to the compare-and-swap: it continues
as a fresh call on the fence as it stands, the step after the wait is the
compare-and-swap, and with a wait primitive all of whose failures carry
`EWOULDBLOCK` the call never returns -1.  A failure with any other errno is not
absorbed: the call returns -1 right after that wait, with no further
compare-and-swap, at the first turn of the loop and at any later one; `EINTR` is
such an errno. -/
theorem await_absorbs_ewouldblock (w : WaitOutcome) (ws : List WaitOutcome) (f : xshmfence)
    (hf : f.v ≠ SET) (hr : w.ret ≠ 0) :
    (w.errno = EWOULDBLOCK →
      xshmfence_await (w :: ws) f =
        (xshmfence_await ws (sync_val_compare_and_swap f 0 (-1)).2).after
          [Event.cas f.v 0 (-1), Event.wait (-1) w]) ∧
    (w.errno = EWOULDBLOCK →
      ∀ (k : Int) (g : xshmfence), (Pc.await_wait.step ⟨k, w⟩ g).1 = Pc.await_cas) ∧
    (w.errno = EWOULDBLOCK → (∀ x ∈ ws, x.ret ≠ 0 → x.errno = EWOULDBLOCK) →
      (xshmfence_await (w :: ws) f).ret ≠ some (-1)) ∧
    (w.errno ≠ EWOULDBLOCK →
      (xshmfence_await (w :: ws) f).ret = some (-1) ∧
        (xshmfence_await (w :: ws) f).trace = [Event.cas f.v 0 (-1), Event.wait (-1) w]) ∧
    (w.errno ≠ EWOULDBLOCK →
      ∀ (k : Int) (g : xshmfence), (Pc.await_wait.step ⟨k, w⟩ g).1 = Pc.returned (-1)) ∧
    (w.errno = EINTR → (xshmfence_await (w :: ws) f).ret = some (-1)) := by
  refine ⟨?_, ?_, ?_, ?_, ?_, ?_⟩
  · intro he
    exact await_cons_retry w ws f hf (Or.inr he)
  · intro he k g
    simp [Pc.step, hr, he]
  · intro he hall
    apply await_no_error
    intro x hx hxr
    rcases List.mem_cons.mp hx with rfl | hx
    · exact he
    · exact hall x hx hxr
  · intro hne
    rw [await_cons_fatal w ws f hf hr hne]
    exact ⟨rfl, rfl⟩
  · intro hne k g
    simp [Pc.step, hr, hne]
  · intro he
    have hne : w.errno ≠ EWOULDBLOCK := by
      rw [he]
      decide
    rw [await_cons_fatal w ws f hf hr hne]

/-- Witness of C5 (amended): an UNSET fence, a first wait failing with
`EWOULDBLOCK`, then one that succeeds; and the same fence with a first wait
failing with errno 22 (`EINVAL`). -/
theorem await_absorbs_ewouldblock_witness :
    (xshmfence_await [⟨-1, 11⟩, ⟨0, 0⟩] ⟨0⟩).ret ≠ some (-1) ∧
    xshmfence_await [⟨-1, 11⟩, ⟨0, 0⟩] ⟨0⟩ =
      (xshmfence_await [⟨0, 0⟩] (sync_val_compare_and_swap ⟨0⟩ 0 (-1)).2).after
        [Event.cas 0 0 (-1), Event.wait (-1) ⟨-1, 11⟩] ∧
    ((xshmfence_await [⟨-1, 22⟩, ⟨0, 0⟩] ⟨0⟩).ret = some (-1) ∧
      (xshmfence_await [⟨-1, 22⟩, ⟨0, 0⟩] ⟨0⟩).trace =
        [Event.cas 0 0 (-1), Event.wait (-1) ⟨-1, 22⟩]) :=
  ⟨(await_absorbs_ewouldblock ⟨-1, 11⟩ [⟨0, 0⟩] ⟨0⟩ (by decide) (by decide)).2.2.1 rfl
      (by decide),
    (await_absorbs_ewouldblock ⟨-1, 11⟩ [⟨0, 0⟩] ⟨0⟩ (by decide) (by decide)).1 rfl,
    (await_absorbs_ewouldblock ⟨-1, 22⟩ [⟨0, 0⟩] ⟨0⟩ (by decide) (by decide)).2.2.2.1
      (by decide)⟩

/-- C6: on a fence that is not SET, when the `futex_wait` call of `xshmfence_await`
fails with an errno other than `EWOULDBLOCK` (so in particular with any error
that is neither "would block" nor "interrupted"), the call returns -1 at once:
its operations are one compare-and-swap and that one wait, nothing follows. At
any turn of the loop the step after such a wait is the return of -1. -/
theorem await_fatal_returns (w : WaitOutcome) (ws : List WaitOutcome) (f : xshmfence)
    (hf : f.v ≠ SET) (hr : w.ret ≠ 0) (he : w.errno ≠ EWOULDBLOCK) :
    (xshmfence_await (w :: ws) f).ret = some (-1) ∧
      (xshmfence_await (w :: ws) f).trace = [Event.cas f.v 0 (-1), Event.wait (-1) w] ∧
      (∀ (k : Int) (g : xshmfence),
        Pc.await_wait.step ⟨k, w⟩ g = (Pc.returned (-1), g, some (Event.wait (-1) w))) := by
  rw [await_cons_fatal w ws f hf hr he]
  refine ⟨rfl, rfl, ?_⟩
  intro k g
  simp [Pc.step, hr, he]

/-- Witness of C6: an UNSET fence and a wait failing with errno 22 (`EINVAL`),
with further outcomes available that are never used. -/
theorem await_fatal_returns_witness :
    (xshmfence_await [⟨-1, 22⟩, ⟨0, 0⟩] ⟨0⟩).ret = some (-1) ∧
      (xshmfence_await [⟨-1, 22⟩, ⟨0, 0⟩] ⟨0⟩).trace =
        [Event.cas 0 0 (-1), Event.wait (-1) ⟨-1, 22⟩] ∧
      (∀ (k : Int) (g : xshmfence),
        Pc.await_wait.step ⟨k, ⟨-1, 22⟩⟩ g =
          (Pc.returned (-1), g, some (Event.wait (-1) ⟨-1, 22⟩))) :=
  await_fatal_returns ⟨-1, 22⟩ [⟨0, 0⟩] ⟨0⟩ (by decide) (by decide) (by decide)

/-- The operations `xshmfence_trigger` performs: the wake call is made exactly when
the compare-and-swap observed UNSET_PARKED. -/
theorem trigger_trace (wake : Int) (f : xshmfence) :
    (xshmfence_trigger wake f).trace =
      if f.v = -1 then [Event.cas f.v 0 1, Event.store 1, Event.wake wake]
      else [Event.cas f.v 0 1] := by
  unfold xshmfence_trigger sync_val_compare_and_swap atomic_store
  by_cases h1 : f.v = -1
  · by_cases hw : wake < 0 <;> simp [h1, hw]
  · simp [h1]

/-- C7: `xshmfence_trigger` returns -1 exactly when the state its compare-and-swap
observed was UNSET_PARKED and `futex_wake` returned a negative value; in every
other case (UNSET, SET, or UNSET_PARKED with a wake that did not fail) it
returns 0. -/
theorem trigger_fails_iff (wake : Int) (f : xshmfence) :
    ((xshmfence_trigger wake f).ret = -1 ↔ (f.v = UNSET_PARKED ∧ wake < 0)) ∧
      ((xshmfence_trigger wake f).ret = 0 ↔ ¬ (f.v = UNSET_PARKED ∧ wake < 0)) ∧
      (xshmfence_trigger wake f).trace.head? = some (Event.cas f.v 0 1) := by
  rw [trigger_ret, trigger_trace]
  by_cases h : f.v = -1 ∧ wake < 0
  · simp [h, UNSET_PARKED]
  · refine ⟨?_, ?_, ?_⟩
    · simp [h, UNSET_PARKED]
    · simp [h, UNSET_PARKED]
    · by_cases h1 : f.v = -1 <;> simp [h1]

/-- C8: `xshmfence_trigger` is idempotent.  From UNSET, UNSET_PARKED or SET, with a
first wake call that does not fail, the first call returns 0 and leaves the
fence SET; a second call returns 0, leaves the same fence (still SET, query
returns 1 after either call) and performs nothing but a compare-and-swap that
observes SET and so writes nothing: no store and no wake call. -/
theorem trigger_idempotent (w1 w2 : Int) (f : xshmfence)
    (hv : f.v = UNSET ∨ f.v = UNSET_PARKED ∨ f.v = SET) (hw : 0 ≤ w1) :
    (xshmfence_trigger w1 f).ret = 0 ∧
      (xshmfence_trigger w2 (xshmfence_trigger w1 f).fence).ret = 0 ∧
      (xshmfence_trigger w2 (xshmfence_trigger w1 f).fence).fence =
        (xshmfence_trigger w1 f).fence ∧
      (xshmfence_trigger w1 f).fence.v = SET ∧
      (xshmfence_query (xshmfence_trigger w1 f).fence).ret = 1 ∧
      (xshmfence_query (xshmfence_trigger w2 (xshmfence_trigger w1 f).fence).fence).ret = 1 ∧
      (xshmfence_trigger w2 (xshmfence_trigger w1 f).fence).trace = [Event.cas SET 0 1] := by
  have hf : (xshmfence_trigger w1 f).fence.v = 1 := by
    rw [trigger_fence]
    rcases hv with h | h | h <;> simp [h, UNSET, UNSET_PARKED, SET]
  have hg : (xshmfence_trigger w1 f).fence = ⟨1⟩ := by
    cases hx : (xshmfence_trigger w1 f).fence with
    | mk x =>
      rw [hx] at hf
      simp only at hf
      rw [hf]
  have h1 : (xshmfence_trigger w1 f).ret = 0 := by
    rw [trigger_ret]
    have : ¬ w1 < 0 := not_lt.mpr hw
    simp [this]
  rw [hg]
  refine ⟨h1, ?_, ?_, rfl, ?_, ?_, ?_⟩ <;>
    simp [xshmfence_trigger, xshmfence_query, sync_val_compare_and_swap, atomic_fetch, SET]

/-- Witness of C8: a parked fence, a first wake call that wakes two waiters. -/
theorem trigger_idempotent_witness :
    (xshmfence_trigger 2 ⟨-1⟩).ret = 0 ∧
      (xshmfence_trigger 0 (xshmfence_trigger 2 ⟨-1⟩).fence).ret = 0 ∧
      (xshmfence_trigger 0 (xshmfence_trigger 2 ⟨-1⟩).fence).fence =
        (xshmfence_trigger 2 ⟨-1⟩).fence ∧
      (xshmfence_trigger 2 ⟨-1⟩).fence.v = SET ∧
      (xshmfence_query (xshmfence_trigger 2 ⟨-1⟩).fence).ret = 1 ∧
      (xshmfence_query (xshmfence_trigger 0 (xshmfence_trigger 2 ⟨-1⟩).fence).fence).ret = 1 ∧
      (xshmfence_trigger 0 (xshmfence_trigger 2 ⟨-1⟩).fence).trace = [Event.cas SET 0 1] :=
  trigger_idempotent 2 0 ⟨-1⟩ (Or.inr (Or.inl rfl)) (by decide)

/-- C9: `xshmfence_reset` turns SET into UNSET and leaves every other word as it is;
after a trigger, a reset makes query return 0; and a second reset changes
nothing more. -/
theorem reset_unsets (f : xshmfence) :
    (xshmfence_reset f).fence = (if f.v = SET then ⟨UNSET⟩ else f) ∧
      (∀ wake : Int,
        (xshmfence_query (xshmfence_reset (xshmfence_trigger wake f).fence).fence).ret = 0) ∧
      (xshmfence_reset (xshmfence_reset f).fence).fence = (xshmfence_reset f).fence := by
  have hne : ∀ g : xshmfence, (xshmfence_reset g).fence.v ≠ 1 := by
    intro g
    rw [reset_fence]
    by_cases h : g.v = 1 <;> simp [h]
  have hid : ∀ g : xshmfence, g.v ≠ 1 → (xshmfence_reset g).fence = g := by
    intro g h
    simp [xshmfence_reset, sync_bool_compare_and_swap, h]
  refine ⟨?_, ?_, ?_⟩
  · by_cases h : f.v = 1 <;> simp [xshmfence_reset, sync_bool_compare_and_swap, h, SET, UNSET]
  · intro wake
    rw [query_ret]
    simp [hne]
  · exact hid _ (hne f)

/-- C10: `xshmfence_query` returns 1 exactly when the word is SET and 0 otherwise; it
leaves the fence as it is, and its only operation is one load: no store, no
compare-and-swap, no futex call. -/
theorem query_reads_set (f : xshmfence) :
    ((xshmfence_query f).ret = 1 ↔ f.v = SET) ∧
      ((xshmfence_query f).ret = 0 ↔ f.v ≠ SET) ∧
      (xshmfence_query f).fence = f ∧
      (xshmfence_query f).trace = [Event.load f.v] ∧
      (∀ o : Oracle, (Pc.query_load.step o f).2.1 = f) := by
  refine ⟨?_, ?_, rfl, rfl, fun _ => rfl⟩
  · rw [query_ret]
    by_cases h : f.v = 1 <;> simp [h, SET]
  · rw [query_ret]
    by_cases h : f.v = 1 <;> simp [h, SET]

/-! ## Properties of interleaved calls -/

/-- A step of any call other than a reset keeps a SET fence SET, does not turn the
call into a reset, and if it is a load it reads SET. -/
theorem step_keeps_set (o : Oracle) (f : xshmfence) (pc : Pc)
    (hpc : pc ≠ Pc.reset_cas) (hf : f.v = 1) :
    (pc.step o f).2.1.v = 1 ∧ (pc.step o f).1 ≠ Pc.reset_cas ∧
      (∀ x, (pc.step o f).2.2 = some (Event.load x) → x = 1) := by
  cases pc with
  | trigger_cas => simp [Pc.step, sync_val_compare_and_swap, hf]
  | trigger_store => simp [Pc.step, atomic_store]
  | trigger_wake =>
    refine ⟨by simp [Pc.step, hf], ?_, by simp [Pc.step]⟩
    by_cases hw : o.wake < 0 <;> simp [Pc.step, hw]
  | await_cas => simp [Pc.step, sync_val_compare_and_swap, hf]
  | await_wait =>
    refine ⟨by simp [Pc.step, hf], ?_, by simp [Pc.step]⟩
    by_cases hr : o.wait.ret = 0
    · simp [Pc.step, hr]
    · by_cases he : o.wait.errno = EWOULDBLOCK <;> simp [Pc.step, hr, he]
  | query_load =>
    refine ⟨by simp [Pc.step, hf], by simp [Pc.step], ?_⟩
    intro x hx
    simp [Pc.step, atomic_fetch, hf] at hx
    exact hx.symm
  | reset_cas => exact absurd rfl hpc
  | returned r => simp [Pc.step, hf]
  | finished => simp [Pc.step, hf]

/-- A step of a call that does not exist changes nothing. -/
theorem act_step_none (s : System) (i : Nat) (o : Oracle) (hi : s.calls[i]? = none) :
    s.act (Action.step i o) = s := by
  simp only [System.act, hi]

/-- A step of call `i`, spelled out. -/
theorem act_step_some (s : System) (i : Nat) (o : Oracle) (pc : Pc)
    (hi : s.calls[i]? = some pc) :
    s.act (Action.step i o) =
      ⟨(pc.step o s.fence).2.1, s.calls.set i (pc.step o s.fence).1,
        s.log ++ ((pc.step o s.fence).2.2.toList.map (fun e => (i, e)))⟩ := by
  simp only [System.act, hi]

/-- One action that does not start a reset maintains this: the fence is SET, no reset
is in progress, and every load in the log that was not already in `old` read
SET. -/
theorem act_keeps_set (old : List (Nat × Event)) (s : System) (a : Action)
    (hs : s.fence.v = 1 ∧ Pc.reset_cas ∉ s.calls ∧
      ∀ i x, (i, Event.load x) ∈ s.log → (i, Event.load x) ∈ old ∨ x = 1)
    (ha : a ≠ Action.call Op.reset) :
    (s.act a).fence.v = 1 ∧ Pc.reset_cas ∉ (s.act a).calls ∧
      ∀ i x, (i, Event.load x) ∈ (s.act a).log → (i, Event.load x) ∈ old ∨ x = 1 := by
  obtain ⟨hf, hc, hl⟩ := hs
  cases a with
  | call op =>
    refine ⟨hf, ?_, hl⟩
    intro hmem
    rcases List.mem_append.mp hmem with h | h
    · exact hc h
    · cases op with
      | reset => exact ha rfl
      | trigger => simp [Op.entry] at h
      | await => simp [Op.entry] at h
      | query => simp [Op.entry] at h
  | step i o =>
    cases hi : s.calls[i]? with
    | none =>
      rw [act_step_none s i o hi]
      exact ⟨hf, hc, hl⟩
    | some pc =>
      rw [act_step_some s i o pc hi]
      have hpc : pc ≠ Pc.reset_cas := by
        intro h
        rw [h] at hi
        exact hc (List.getElem?_mem hi)
      obtain ⟨h1, h2, h3⟩ := step_keeps_set o s.fence pc hpc hf
      refine ⟨h1, ?_, ?_⟩
      · intro hmem
        rcases List.mem_or_eq_of_mem_set hmem with h | h
        · exact hc h
        · exact h2 h.symm
      · intro j x hjx
        rcases List.mem_append.mp hjx with h | h
        · exact hl j x h
        · right
          apply h3 x
          cases he : (pc.step o s.fence).2.2 with
          | none => simp [he] at h
          | some e =>
            simp [he] at h
            rw [h.2]

/-- A schedule that starts no reset maintains the same three facts. -/
theorem exec_keeps_set (old : List (Nat × Event)) (as : List Action) :
    ∀ s : System,
      (s.fence.v = 1 ∧ Pc.reset_cas ∉ s.calls ∧
        ∀ i x, (i, Event.load x) ∈ s.log → (i, Event.load x) ∈ old ∨ x = 1) →
      Action.call Op.reset ∉ as →
      ((s.exec as).fence.v = 1 ∧ Pc.reset_cas ∉ (s.exec as).calls ∧
        ∀ i x, (i, Event.load x) ∈ (s.exec as).log → (i, Event.load x) ∈ old ∨ x = 1) := by
  induction as with
  | nil =>
    intro s hs _
    exact hs
  | cons a as ih =>
    intro s hs hno
    have ha : a ≠ Action.call Op.reset := fun h => hno (h ▸ List.mem_cons_self a as)
    exact ih (s.act a) (act_keeps_set old s a hs ha)
      (fun h => hno (List.mem_cons_of_mem a h))

/-- C1: take a system whose fence is SET and in which no reset is in progress, and any
schedule of trigger, await and query calls and of their atomic steps, in any
interleaving and with any results of the futex calls, that starts no reset.
After every number `k` of actions the fence is SET, `xshmfence_query` returns 1,
and every load performed by a query of the schedule read SET. -/
theorem set_is_stable (s : System) (as : List Action)
    (hset : s.fence.v = SET)
    (hcalls : Pc.reset_cas ∉ s.calls)
    (hno : Action.call Op.reset ∉ as) (k : Nat) :
    (s.exec (as.take k)).fence.v = SET ∧
      (xshmfence_query (s.exec (as.take k)).fence).ret = 1 ∧
      (∀ i x, (i, Event.load x) ∈ (s.exec (as.take k)).log →
        (i, Event.load x) ∈ s.log ∨ x = SET) := by
  have h0 : s.fence.v = 1 ∧ Pc.reset_cas ∉ s.calls ∧
      ∀ i x, (i, Event.load x) ∈ s.log → (i, Event.load x) ∈ s.log ∨ x = 1 :=
    ⟨hset, hcalls, fun _ _ h => Or.inl h⟩
  have hk : Action.call Op.reset ∉ as.take k := fun h => hno (List.mem_of_mem_take h)
  obtain ⟨h1, _, h3⟩ := exec_keeps_set s.log (as.take k) s h0 hk
  refine ⟨h1, ?_, h3⟩
  rw [query_ret, h1]
  rfl

/-- Witness of C1: a trigger, an await and a query are started on a SET fence and run
to their returns, the wake and wait primitives reporting failures. -/
theorem set_is_stable_witness :
    ((System.mk ⟨1⟩ [] []).exec
        ([Action.call Op.trigger, Action.call Op.await, Action.call Op.query,
          Action.step 1 ⟨-1, ⟨-1, 4⟩⟩, Action.step 0 ⟨-1, ⟨-1, 4⟩⟩,
          Action.step 2 ⟨-1, ⟨-1, 4⟩⟩].take 6)).fence.v = SET ∧
      (xshmfence_query ((System.mk ⟨1⟩ [] []).exec
        ([Action.call Op.trigger, Action.call Op.await, Action.call Op.query,
          Action.step 1 ⟨-1, ⟨-1, 4⟩⟩, Action.step 0 ⟨-1, ⟨-1, 4⟩⟩,
          Action.step 2 ⟨-1, ⟨-1, 4⟩⟩].take 6)).fence).ret = 1 ∧
      (∀ i x, (i, Event.load x) ∈ ((System.mk ⟨1⟩ [] []).exec
        ([Action.call Op.trigger, Action.call Op.await, Action.call Op.query,
          Action.step 1 ⟨-1, ⟨-1, 4⟩⟩, Action.step 0 ⟨-1, ⟨-1, 4⟩⟩,
          Action.step 2 ⟨-1, ⟨-1, 4⟩⟩].take 6)).log →
        (i, Event.load x) ∈ (System.mk ⟨1⟩ [] []).log ∨ x = SET) :=
  set_is_stable (System.mk ⟨1⟩ [] [])
    [Action.call Op.trigger, Action.call Op.await, Action.call Op.query,
      Action.step 1 ⟨-1, ⟨-1, 4⟩⟩, Action.step 0 ⟨-1, ⟨-1, 4⟩⟩,
      Action.step 2 ⟨-1, ⟨-1, 4⟩⟩]
    rfl (by decide) (by decide) 6

/-- A call that has returned takes no further step. -/
theorem run_done (pc : Pc) (f : xshmfence) (ts : List Tick) (h : pc.isDone = true) :
    pc.run f ts = ⟨pc, f, []⟩ := by
  cases ts with
  | nil => rfl
  | cons t ts => simp [Pc.run, h]

/-- One step of a call that has not returned, followed by the rest of its run. -/
theorem run_cons (pc : Pc) (f : xshmfence) (t : Tick) (ts : List Tick)
    (h : pc.isDone = false) :
    pc.run f (t :: ts) =
      ⟨(Pc.run (pc.step t.oracle (t.disturb f)).1 (pc.step t.oracle (t.disturb f)).2.1 ts).pc,
        (Pc.run (pc.step t.oracle (t.disturb f)).1 (pc.step t.oracle (t.disturb f)).2.1 ts).fence,
        (pc.step t.oracle (t.disturb f)).2.2.toList ++
          (Pc.run (pc.step t.oracle (t.disturb f)).1
            (pc.step t.oracle (t.disturb f)).2.1 ts).trace⟩ := by
  simp [Pc.run, h]

/-- Later events decide the last compare-and-swap when they contain one. -/
theorem lastCas_cons_of_some (e : Event) (es : List Event) (x : Int)
    (h : lastCas es = some x) : lastCas (e :: es) = some x := by
  simp [lastCas, h]

/-- The run of an await call, from either of its two steps: a return of 0 comes
right after a compare-and-swap that observed SET. -/
theorem await_run_inv (ts : List Tick) :
    ∀ (pc : Pc) (f : xshmfence), pc = Pc.await_cas ∨ pc = Pc.await_wait →
      ((pc.run f ts).pc = Pc.returned 0 →
        lastCas (pc.run f ts).trace = some 1 ∧ (pc.run f ts).fence.v = 1) ∧
      (∀ e ∈ (pc.run f ts).trace, e.isAwaitOp = true) := by
  induction ts with
  | nil =>
    intro pc f hpc
    rcases hpc with rfl | rfl <;> simp [Pc.run]
  | cons t ts ih =>
    intro pc f hpc
    rcases hpc with rfl | rfl
    · rw [run_cons Pc.await_cas f t ts rfl]
      by_cases hg : (t.disturb f).v = 1
      · have hs : Pc.await_cas.step t.oracle (t.disturb f) =
            (Pc.returned 0, t.disturb f, some (Event.cas 1 0 (-1))) := by
          simp [Pc.step, sync_val_compare_and_swap, hg]
        rw [hs, run_done (Pc.returned 0) _ ts rfl]
        simp [lastCas, hg, Event.isAwaitOp]
      · have hs : Pc.await_cas.step t.oracle (t.disturb f) =
            (Pc.await_wait, (sync_val_compare_and_swap (t.disturb f) 0 (-1)).2,
              some (Event.cas (t.disturb f).v 0 (-1))) := by
          simp [Pc.step, sync_val_compare_and_swap, hg]
        rw [hs]
        obtain ⟨h1, h2⟩ := ih Pc.await_wait
          (sync_val_compare_and_swap (t.disturb f) 0 (-1)).2 (Or.inr rfl)
        refine ⟨?_, ?_⟩
        · intro hret
          obtain ⟨h3, h4⟩ := h1 hret
          exact ⟨lastCas_cons_of_some _ _ _ h3, h4⟩
        · intro e he
          rcases List.mem_append.mp he with h | h
          · simp at h
            rw [h]
            rfl
          · exact h2 e h
    · rw [run_cons Pc.await_wait f t ts rfl]
      by_cases hfatal : t.oracle.wait.ret ≠ 0 ∧ t.oracle.wait.errno ≠ EWOULDBLOCK
      · have hs : Pc.await_wait.step t.oracle (t.disturb f) =
            (Pc.returned (-1), t.disturb f, some (Event.wait (-1) t.oracle.wait)) := by
          simp [Pc.step, hfatal.1, hfatal.2]
        rw [hs, run_done (Pc.returned (-1)) _ ts rfl]
        simp [Event.isAwaitOp]
      · have hs : Pc.await_wait.step t.oracle (t.disturb f) =
            (Pc.await_cas, t.disturb f, some (Event.wait (-1) t.oracle.wait)) := by
          by_cases hr : t.oracle.wait.ret = 0
          · simp [Pc.step, hr]
          · have he : t.oracle.wait.errno = EWOULDBLOCK := by
              by_contra hne
              exact hfatal ⟨hr, hne⟩
            simp [Pc.step, hr, he]
        rw [hs]
        obtain ⟨h1, h2⟩ := ih Pc.await_cas (t.disturb f) (Or.inl rfl)
        refine ⟨?_, ?_⟩
        · intro hret
          obtain ⟨h3, h4⟩ := h1 hret
          exact ⟨lastCas_cons_of_some _ _ _ h3, h4⟩
        · intro e he
          rcases List.mem_append.mp he with h | h
          · simp at h
            rw [h]
            rfl
          · exact h2 e h

/-- With nobody else touching the word, `xshmfence_await` returns 0 only on a fence
that is SET. -/
theorem await_alone_success (ws : List WaitOutcome) :
    ∀ f : xshmfence, (xshmfence_await ws f).ret = some 0 → f.v = 1 := by
  induction ws with
  | nil =>
    intro f h
    by_contra hf
    simp [xshmfence_await, sync_val_compare_and_swap, hf] at h
  | cons w ws ih =>
    intro f h
    by_contra hf
    by_cases hw : w.ret = 0 ∨ w.errno = EWOULDBLOCK
    · rw [await_cons_retry w ws f hf hw] at h
      have h2 := ih _ h
      by_cases h0 : f.v = 0 <;> simp [sync_val_compare_and_swap, h0] at h2
      exact hf h2
    · have hr : w.ret ≠ 0 := fun hr => hw (Or.inl hr)
      have he : w.errno ≠ EWOULDBLOCK := fun he => hw (Or.inr he)
      rw [await_cons_fatal w ws f hf hr he] at h
      simp at h

/-- C4: take any execution of `xshmfence_await`, with any results of the wait primitive
and with other parties rewriting the word in any way between its steps.  If
the call returns 0, the last value its compare-and-swap observed was SET and
the fence is SET at that moment.  The call only ever performs a
compare-and-swap from 0 to -1 and waits, so it never writes SET: a step of it
that leaves the word SET found it SET.  Called with nobody else touching the
word, it returns 0 only if the fence was SET from the start. -/
theorem await_success_saw_set (f : xshmfence) (ts : List Tick) :
    ((Pc.await_cas.run f ts).pc = Pc.returned 0 →
      lastCas (Pc.await_cas.run f ts).trace = some SET ∧
        (Pc.await_cas.run f ts).fence.v = SET) ∧
    (∀ e ∈ (Pc.await_cas.run f ts).trace, e.isAwaitOp = true) ∧
    (∀ (o : Oracle) (g : xshmfence), (Pc.await_cas.step o g).2.1.v = SET → g.v = SET) ∧
    (∀ (o : Oracle) (g : xshmfence), (Pc.await_wait.step o g).2.1 = g) ∧
    (∀ ws : List WaitOutcome, (xshmfence_await ws f).ret = some 0 → f.v = SET) := by
  refine ⟨(await_run_inv ts Pc.await_cas f (Or.inl rfl)).1,
    (await_run_inv ts Pc.await_cas f (Or.inl rfl)).2, ?_, ?_, ?_⟩
  · intro o g h
    by_cases h0 : g.v = 0
    · simp [Pc.step, sync_val_compare_and_swap, h0, SET] at h
    · simpa [Pc.step, sync_val_compare_and_swap, h0] using h
  · intro o g
    simp [Pc.step]
  · intro ws h
    exact await_alone_success ws f h

/-- Witness of C4: the call parks on an UNSET fence, its wait comes back, another
party has stored SET in the meantime, and the second compare-and-swap sees it. -/
theorem await_success_saw_set_witness :
    (Pc.await_cas.run ⟨0⟩
        [⟨none, ⟨0, ⟨0, 0⟩⟩⟩, ⟨none, ⟨0, ⟨0, 0⟩⟩⟩, ⟨some 1, ⟨0, ⟨0, 0⟩⟩⟩]).pc = Pc.returned 0 ∧
      lastCas (Pc.await_cas.run ⟨0⟩
        [⟨none, ⟨0, ⟨0, 0⟩⟩⟩, ⟨none, ⟨0, ⟨0, 0⟩⟩⟩, ⟨some 1, ⟨0, ⟨0, 0⟩⟩⟩]).trace = some SET ∧
      (Pc.await_cas.run ⟨0⟩
        [⟨none, ⟨0, ⟨0, 0⟩⟩⟩, ⟨none, ⟨0, ⟨0, 0⟩⟩⟩, ⟨some 1, ⟨0, ⟨0, 0⟩⟩⟩]).fence.v = SET :=
  ⟨by decide,
    (await_success_saw_set ⟨0⟩
      [⟨none, ⟨0, ⟨0, 0⟩⟩⟩, ⟨none, ⟨0, ⟨0, 0⟩⟩⟩, ⟨some 1, ⟨0, ⟨0, 0⟩⟩⟩]).1 (by decide)⟩

/-! ## The functions and the step machine agree -/

/-- Three undisturbed steps of a trigger call give what `xshmfence_trigger` gives. -/
theorem trigger_run_alone (wake : Int) (w : WaitOutcome) (f : xshmfence) :
    Pc.trigger_cas.run f [⟨none, ⟨wake, w⟩⟩, ⟨none, ⟨wake, w⟩⟩, ⟨none, ⟨wake, w⟩⟩] =
      ⟨Pc.returned (xshmfence_trigger wake f).ret, (xshmfence_trigger wake f).fence,
        (xshmfence_trigger wake f).trace⟩ := by
  by_cases h1 : f.v = -1
  · by_cases hw : wake < 0 <;>
      simp [Pc.run, Pc.step, Pc.isDone, Tick.disturb, xshmfence_trigger,
        sync_val_compare_and_swap, atomic_store, h1, hw]
  · simp [Pc.run, Pc.step, Pc.isDone, Tick.disturb, xshmfence_trigger,
      sync_val_compare_and_swap, h1]

/-- One undisturbed step of a query call gives what `xshmfence_query` gives. -/
theorem query_run_alone (o : Oracle) (f : xshmfence) :
    Pc.query_load.run f [⟨none, o⟩] =
      ⟨Pc.returned (xshmfence_query f).ret, (xshmfence_query f).fence,
        (xshmfence_query f).trace⟩ := by
  simp [Pc.run, Pc.step, Pc.isDone, Tick.disturb, xshmfence_query]

/-- One undisturbed step of a reset call gives what `xshmfence_reset` gives. -/
theorem reset_run_alone (o : Oracle) (f : xshmfence) :
    Pc.reset_cas.run f [⟨none, o⟩] =
      ⟨Pc.finished, (xshmfence_reset f).fence, (xshmfence_reset f).trace⟩ := by
  simp [Pc.run, Pc.step, Pc.isDone, Tick.disturb, xshmfence_reset]

/-- The undisturbed steps of an await call give what `xshmfence_await` gives. -/
theorem await_run_alone (ws : List WaitOutcome) :
    ∀ f : xshmfence, Pc.await_cas.run f (awaitTicks ws) =
      ⟨awaitPc (xshmfence_await ws f).ret, (xshmfence_await ws f).fence,
        (xshmfence_await ws f).trace⟩ := by
  induction ws with
  | nil =>
    intro f
    by_cases hf : f.v = 1 <;>
      simp [awaitTicks, Pc.run, Pc.step, Pc.isDone, Tick.disturb, xshmfence_await,
        sync_val_compare_and_swap, awaitPc, hf]
  | cons w ws ih =>
    intro f
    by_cases hf : f.v = 1
    · simp [awaitTicks, Pc.run, Pc.step, Pc.isDone, Tick.disturb, xshmfence_await,
        sync_val_compare_and_swap, awaitPc, hf]
    · have hcas : Pc.await_cas.step ⟨0, w⟩ f =
          (Pc.await_wait, (sync_val_compare_and_swap f 0 (-1)).2,
            some (Event.cas f.v 0 (-1))) := by
        simp [Pc.step, sync_val_compare_and_swap, hf]
      by_cases hw : w.ret = 0 ∨ w.errno = EWOULDBLOCK
      · have hwait : ∀ g : xshmfence, Pc.await_wait.step ⟨0, w⟩ g =
            (Pc.await_cas, g, some (Event.wait (-1) w)) := by
          intro g
          by_cases hr : w.ret = 0
          · simp [Pc.step, hr]
          · simp [Pc.step, hr, hw.resolve_left hr]
        rw [await_cons_retry w ws f hf hw, awaitTicks, run_cons Pc.await_cas f _ _ rfl]
        simp only [Tick.disturb]
        rw [hcas, run_cons Pc.await_wait _ _ _ rfl]
        simp only [Tick.disturb]
        rw [hwait, ih]
        simp [Result.after]
      · have hr : w.ret ≠ 0 := fun hr => hw (Or.inl hr)
        have he : w.errno ≠ EWOULDBLOCK := fun he => hw (Or.inr he)
        have hwait : ∀ g : xshmfence, Pc.await_wait.step ⟨0, w⟩ g =
            (Pc.returned (-1), g, some (Event.wait (-1) w)) := by
          intro g
          simp [Pc.step, hr, he]
        rw [await_cons_fatal w ws f hf hr he, awaitTicks, run_cons Pc.await_cas f _ _ rfl]
        simp only [Tick.disturb]
        rw [hcas, run_cons Pc.await_wait _ _ _ rfl]
        simp only [Tick.disturb]
        rw [hwait, run_done (Pc.returned (-1)) _ _ rfl]
        simp [awaitPc]

/-! ## The three states -/

/-- Every atomic step of every call maps a word in {-1, 0, 1} to one of them. -/
theorem step_keeps_state (o : Oracle) (f : xshmfence) (pc : Pc)
    (h : f.v = 0 ∨ f.v = -1 ∨ f.v = 1) :
    (pc.step o f).2.1.v = 0 ∨ (pc.step o f).2.1.v = -1 ∨ (pc.step o f).2.1.v = 1 := by
  cases pc with
  | trigger_cas =>
    by_cases h0 : f.v = 0
    · simp [Pc.step, sync_val_compare_and_swap, h0]
    · simpa [Pc.step, sync_val_compare_and_swap, h0] using h
  | trigger_store => simp [Pc.step, atomic_store]
  | trigger_wake => simpa [Pc.step] using h
  | await_cas =>
    by_cases h0 : f.v = 0
    · simp [Pc.step, sync_val_compare_and_swap, h0]
    · simpa [Pc.step, sync_val_compare_and_swap, h0] using h
  | await_wait => simpa [Pc.step] using h
  | query_load => simpa [Pc.step] using h
  | reset_cas =>
    by_cases h1 : f.v = 1
    · simp [Pc.step, sync_bool_compare_and_swap, h1]
    · simpa [Pc.step, sync_bool_compare_and_swap, h1] using h
  | returned r => simpa [Pc.step] using h
  | finished => simpa [Pc.step] using h

/-- Every action maps a word in {-1, 0, 1} to one of them. -/
theorem act_keeps_state (s : System) (a : Action)
    (h : s.fence.v = 0 ∨ s.fence.v = -1 ∨ s.fence.v = 1) :
    (s.act a).fence.v = 0 ∨ (s.act a).fence.v = -1 ∨ (s.act a).fence.v = 1 := by
  cases a with
  | call op => exact h
  | step i o =>
    cases hi : s.calls[i]? with
    | none =>
      rw [act_step_none s i o hi]
      exact h
    | some pc =>
      rw [act_step_some s i o pc hi]
      exact step_keeps_state o s.fence pc h

/-- Every schedule maps a word in {-1, 0, 1} to one of them. -/
theorem exec_keeps_state (as : List Action) :
    ∀ s : System, (s.fence.v = 0 ∨ s.fence.v = -1 ∨ s.fence.v = 1) →
      ((s.exec as).fence.v = 0 ∨ (s.exec as).fence.v = -1 ∨ (s.exec as).fence.v = 1) := by
  induction as with
  | nil =>
    intro s h
    exact h
  | cons a as ih =>
    intro s h
    exact ih (s.act a) (act_keeps_state s a h)

/-- C11: from a fresh fence (UNSET, no call in progress), after any schedule of calls of
trigger, await, query and reset and of their atomic steps, in any interleaving
and with any results of the futex calls, the word is UNSET, UNSET_PARKED or
SET.  The same holds from any system whose word is one of the three, and each
single atomic step keeps the word among the three. -/
theorem state_stays_valid (as : List Action) :
    (((System.mk ⟨UNSET⟩ [] []).exec as).fence.v = UNSET ∨
      ((System.mk ⟨UNSET⟩ [] []).exec as).fence.v = UNSET_PARKED ∨
      ((System.mk ⟨UNSET⟩ [] []).exec as).fence.v = SET) ∧
    (∀ s : System, (s.fence.v = UNSET ∨ s.fence.v = UNSET_PARKED ∨ s.fence.v = SET) →
      ((s.exec as).fence.v = UNSET ∨ (s.exec as).fence.v = UNSET_PARKED ∨
        (s.exec as).fence.v = SET)) ∧
    (∀ (pc : Pc) (o : Oracle) (f : xshmfence),
      (f.v = UNSET ∨ f.v = UNSET_PARKED ∨ f.v = SET) →
      ((pc.step o f).2.1.v = UNSET ∨ (pc.step o f).2.1.v = UNSET_PARKED ∨
        (pc.step o f).2.1.v = SET)) :=
  ⟨exec_keeps_state as (System.mk ⟨UNSET⟩ [] []) (Or.inl rfl),
    fun s h => exec_keeps_state as s h,
    fun pc o f h => step_keeps_state o f pc h⟩

/-- Witness of C11: a waiter parks, a trigger stores SET and wakes, a reset follows; the
second and third parts are applied to a parked fence. -/
theorem state_stays_valid_witness :
    (((System.mk ⟨UNSET⟩ [] []).exec
        [Action.call Op.await, Action.step 0 ⟨0, ⟨0, 0⟩⟩, Action.call Op.trigger,
          Action.step 1 ⟨1, ⟨0, 0⟩⟩, Action.step 1 ⟨1, ⟨0, 0⟩⟩, Action.step 1 ⟨1, ⟨0, 0⟩⟩,
          Action.call Op.reset, Action.step 2 ⟨0, ⟨0, 0⟩⟩]).fence.v = UNSET ∨
      ((System.mk ⟨UNSET⟩ [] []).exec
        [Action.call Op.await, Action.step 0 ⟨0, ⟨0, 0⟩⟩, Action.call Op.trigger,
          Action.step 1 ⟨1, ⟨0, 0⟩⟩, Action.step 1 ⟨1, ⟨0, 0⟩⟩, Action.step 1 ⟨1, ⟨0, 0⟩⟩,
          Action.call Op.reset, Action.step 2 ⟨0, ⟨0, 0⟩⟩]).fence.v = UNSET_PARKED ∨
      ((System.mk ⟨UNSET⟩ [] []).exec
        [Action.call Op.await, Action.step 0 ⟨0, ⟨0, 0⟩⟩, Action.call Op.trigger,
          Action.step 1 ⟨1, ⟨0, 0⟩⟩, Action.step 1 ⟨1, ⟨0, 0⟩⟩, Action.step 1 ⟨1, ⟨0, 0⟩⟩,
          Action.call Op.reset, Action.step 2 ⟨0, ⟨0, 0⟩⟩]).fence.v = SET) ∧
    ((Pc.trigger_store.step ⟨0, ⟨0, 0⟩⟩ ⟨-1⟩).2.1.v = UNSET ∨
      (Pc.trigger_store.step ⟨0, ⟨0, 0⟩⟩ ⟨-1⟩).2.1.v = UNSET_PARKED ∨
      (Pc.trigger_store.step ⟨0, ⟨0, 0⟩⟩ ⟨-1⟩).2.1.v = SET) :=
  ⟨(state_stays_valid
      [Action.call Op.await, Action.step 0 ⟨0, ⟨0, 0⟩⟩, Action.call Op.trigger,
        Action.step 1 ⟨1, ⟨0, 0⟩⟩, Action.step 1 ⟨1, ⟨0, 0⟩⟩, Action.step 1 ⟨1, ⟨0, 0⟩⟩,
        Action.call Op.reset, Action.step 2 ⟨0, ⟨0, 0⟩⟩]).1,
    (state_stays_valid []).2.2 Pc.trigger_store ⟨0, ⟨0, 0⟩⟩ ⟨-1⟩ (Or.inr (Or.inl rfl))⟩

/-! ## Reset, then await -/

/-- An await call that starts on a word other than SET, and between whose steps nobody
stores SET, does not return 0. -/
theorem await_run_needs_set (ts : List Tick) :
    ∀ (pc : Pc) (f : xshmfence), pc = Pc.await_cas ∨ pc = Pc.await_wait → f.v ≠ 1 →
      (∀ t ∈ ts, t.others ≠ some 1) → (pc.run f ts).pc ≠ Pc.returned 0 := by
  induction ts with
  | nil =>
    intro pc f hpc _ _
    rcases hpc with rfl | rfl <;> simp [Pc.run]
  | cons t ts ih =>
    intro pc f hpc hf hall
    have ht : t.others ≠ some 1 := hall t (List.mem_cons_self t ts)
    have hts : ∀ x ∈ ts, x.others ≠ some 1 := fun x hx => hall x (List.mem_cons_of_mem t hx)
    have hg : (t.disturb f).v ≠ 1 := by
      unfold Tick.disturb
      cases ho : t.others with
      | none => simpa using hf
      | some x =>
        intro hx
        apply ht
        rw [ho]
        simp only at hx
        rw [hx]
    rcases hpc with rfl | rfl
    · rw [run_cons Pc.await_cas f t ts rfl]
      have hs : Pc.await_cas.step t.oracle (t.disturb f) =
          (Pc.await_wait, (sync_val_compare_and_swap (t.disturb f) 0 (-1)).2,
            some (Event.cas (t.disturb f).v 0 (-1))) := by
        simp [Pc.step, sync_val_compare_and_swap, hg]
      rw [hs]
      have hg2 : (sync_val_compare_and_swap (t.disturb f) 0 (-1)).2.v ≠ 1 := by
        by_cases h0 : (t.disturb f).v = 0
        · simp [sync_val_compare_and_swap, h0]
        · simpa [sync_val_compare_and_swap, h0] using hg
      exact ih Pc.await_wait _ (Or.inr rfl) hg2 hts
    · rw [run_cons Pc.await_wait f t ts rfl]
      by_cases hfatal : t.oracle.wait.ret ≠ 0 ∧ t.oracle.wait.errno ≠ EWOULDBLOCK
      · have hs : Pc.await_wait.step t.oracle (t.disturb f) =
            (Pc.returned (-1), t.disturb f, some (Event.wait (-1) t.oracle.wait)) := by
          simp [Pc.step, hfatal.1, hfatal.2]
        rw [hs, run_done (Pc.returned (-1)) _ ts rfl]
        simp
      · have hs : Pc.await_wait.step t.oracle (t.disturb f) =
            (Pc.await_cas, t.disturb f, some (Event.wait (-1) t.oracle.wait)) := by
          by_cases hr : t.oracle.wait.ret = 0
          · simp [Pc.step, hr]
          · have he : t.oracle.wait.errno = EWOULDBLOCK := by
              by_contra hne
              exact hfatal ⟨hr, hne⟩
            simp [Pc.step, hr, he]
        rw [hs]
        exact ih Pc.await_cas _ (Or.inl rfl) hg hts

/-- C12: on a SET fence, `xshmfence_reset` leaves UNSET, and an await that follows does not
return at once.  Its first compare-and-swap observes UNSET and stores
UNSET_PARKED, its next step is `futex_wait` on the word with expected value
UNSET_PARKED, and with no answer from the wait primitive the call is still
inside it.  Left alone it never returns 0; with other parties writing the word
between its steps it returns 0 only if one of them stored SET, and only after a
compare-and-swap that observed SET. -/
theorem await_after_reset_parks (f : xshmfence) (h : f.v = SET) :
    (xshmfence_reset f).fence = ⟨UNSET⟩ ∧
    (∀ o : Oracle, Pc.await_cas.step o (xshmfence_reset f).fence =
      (Pc.await_wait, ⟨UNSET_PARKED⟩, some (Event.cas UNSET 0 (-1)))) ∧
    (∀ (o : Oracle) (g : xshmfence),
      (Pc.await_wait.step o g).2.2 = some (Event.wait UNSET_PARKED o.wait)) ∧
    xshmfence_await [] (xshmfence_reset f).fence =
      ⟨none, ⟨UNSET_PARKED⟩, [Event.cas UNSET 0 (-1)]⟩ ∧
    (∀ (w : WaitOutcome) (ws : List WaitOutcome),
      (xshmfence_await (w :: ws) (xshmfence_reset f).fence).trace.take 2 =
        [Event.cas UNSET 0 (-1), Event.wait UNSET_PARKED w]) ∧
    (∀ ws : List WaitOutcome, (xshmfence_await ws (xshmfence_reset f).fence).ret ≠ some 0) ∧
    (∀ ts : List Tick, (Pc.await_cas.run (xshmfence_reset f).fence ts).pc = Pc.returned 0 →
      (∃ t ∈ ts, t.others = some SET) ∧
        lastCas (Pc.await_cas.run (xshmfence_reset f).fence ts).trace = some SET ∧
        (Pc.await_cas.run (xshmfence_reset f).fence ts).fence.v = SET) := by
  have h1 : f.v = 1 := h
  have hr : (xshmfence_reset f).fence = ⟨0⟩ := by
    simp [xshmfence_reset, sync_bool_compare_and_swap, h1]
  have h0 : (⟨0⟩ : xshmfence).v ≠ 1 := by decide
  rw [hr]
  refine ⟨rfl, ?_, ?_, ?_, ?_, ?_, ?_⟩
  · intro o
    simp [Pc.step, sync_val_compare_and_swap, UNSET, UNSET_PARKED]
  · intro o g
    simp [Pc.step, UNSET_PARKED]
  · simp [xshmfence_await, sync_val_compare_and_swap, UNSET, UNSET_PARKED]
  · intro w ws
    by_cases hw : w.ret = 0 ∨ w.errno = EWOULDBLOCK
    · rw [await_cons_retry w ws ⟨0⟩ h0 hw]
      simp [Result.after, UNSET, UNSET_PARKED]
    · have hr2 : w.ret ≠ 0 := fun x => hw (Or.inl x)
      have he : w.errno ≠ EWOULDBLOCK := fun x => hw (Or.inr x)
      rw [await_cons_fatal w ws ⟨0⟩ h0 hr2 he]
      simp [UNSET, UNSET_PARKED]
  · intro ws hret
    exact h0 (await_alone_success ws ⟨0⟩ hret)
  · intro ts hret
    refine ⟨?_, (await_run_inv ts Pc.await_cas ⟨0⟩ (Or.inl rfl)).1 hret⟩
    by_contra hnone
    apply await_run_needs_set ts Pc.await_cas ⟨0⟩ (Or.inl rfl) h0 _ hret
    intro t ht hsome
    exact hnone ⟨t, ht, hsome⟩

/-- Witness of C12: reset of a SET fence, then an await whose first wait comes back
after another party has stored SET. -/
theorem await_after_reset_parks_witness :
    (xshmfence_reset ⟨1⟩).fence = ⟨UNSET⟩ ∧
    xshmfence_await [] (xshmfence_reset ⟨1⟩).fence =
      ⟨none, ⟨UNSET_PARKED⟩, [Event.cas UNSET 0 (-1)]⟩ ∧
    ((∃ t ∈ [(⟨none, ⟨0, ⟨0, 0⟩⟩⟩ : Tick), ⟨some 1, ⟨0, ⟨0, 0⟩⟩⟩, ⟨none, ⟨0, ⟨0, 0⟩⟩⟩],
        t.others = some SET) ∧
      lastCas (Pc.await_cas.run (xshmfence_reset ⟨1⟩).fence
        [⟨none, ⟨0, ⟨0, 0⟩⟩⟩, ⟨some 1, ⟨0, ⟨0, 0⟩⟩⟩, ⟨none, ⟨0, ⟨0, 0⟩⟩⟩]).trace = some SET ∧
      (Pc.await_cas.run (xshmfence_reset ⟨1⟩).fence
        [⟨none, ⟨0, ⟨0, 0⟩⟩⟩, ⟨some 1, ⟨0, ⟨0, 0⟩⟩⟩, ⟨none, ⟨0, ⟨0, 0⟩⟩⟩]).fence.v = SET) :=
  ⟨(await_after_reset_parks ⟨1⟩ rfl).1,
    (await_after_reset_parks ⟨1⟩ rfl).2.2.2.1,
    (await_after_reset_parks ⟨1⟩ rfl).2.2.2.2.2.2
      [⟨none, ⟨0, ⟨0, 0⟩⟩⟩, ⟨some 1, ⟨0, ⟨0, 0⟩⟩⟩, ⟨none, ⟨0, ⟨0, 0⟩⟩⟩] (by decide)⟩

/-! ## Wake calls and the parked state -/

/-- C16: `xshmfence_trigger` calls `futex_wake` exactly when the value its compare-and-swap
observed was UNSET_PARKED, and then once: the number of wake calls in its trace
is 1 in that case and 0 otherwise (so none from UNSET or SET).  Step by step,
the compare-and-swap goes on to the store and the wake when it observed
UNSET_PARKED and returns 0 otherwise, and the wake step is followed by a return. -/
theorem trigger_wakes_iff_parked (wake : Int) (f : xshmfence) :
    ((∃ r, Event.wake r ∈ (xshmfence_trigger wake f).trace) ↔ f.v = UNSET_PARKED) ∧
    (xshmfence_trigger wake f).trace.countP Event.isWake =
      (if f.v = UNSET_PARKED then 1 else 0) ∧
    (xshmfence_trigger wake f).trace.head? = some (Event.cas f.v 0 1) ∧
    (∀ o : Oracle, (Pc.trigger_cas.step o f).1 =
      if f.v = UNSET_PARKED then Pc.trigger_store else Pc.returned 0) ∧
    (∀ (o : Oracle) (g : xshmfence), (Pc.trigger_store.step o g).1 = Pc.trigger_wake) ∧
    (∀ (o : Oracle) (g : xshmfence), (Pc.trigger_wake.step o g).1.isDone = true) := by
  rw [trigger_trace]
  refine ⟨?_, ?_, ?_, ?_, ?_, ?_⟩
  · by_cases h1 : f.v = -1 <;> simp [h1, UNSET_PARKED]
  · by_cases h1 : f.v = -1 <;> simp [h1, UNSET_PARKED, List.countP_cons, Event.isWake]
  · by_cases h1 : f.v = -1 <;> simp [h1]
  · intro o
    simp [Pc.step, sync_val_compare_and_swap, UNSET_PARKED]
  · intro o g
    simp [Pc.step]
  · intro o g
    by_cases hw : o.wake < 0 <;> simp [Pc.step, Pc.isDone, hw]

/-- A step that changes the word to UNSET_PARKED is the compare-and-swap of an await
call on an UNSET word, and the wait comes next. -/
theorem step_parks (pc : Pc) (o : Oracle) (f : xshmfence)
    (hafter : (pc.step o f).2.1.v = -1) (hbefore : f.v ≠ -1) :
    pc = Pc.await_cas ∧ f.v = 0 ∧ (pc.step o f).1 = Pc.await_wait ∧
      (pc.step o f).2.2 = some (Event.cas 0 0 (-1)) := by
  cases pc with
  | trigger_cas =>
    by_cases h0 : f.v = 0
    · simp [Pc.step, sync_val_compare_and_swap, h0] at hafter
    · simp [Pc.step, sync_val_compare_and_swap, h0] at hafter
      exact absurd hafter hbefore
  | trigger_store => simp [Pc.step, atomic_store] at hafter
  | trigger_wake => exact absurd (by simpa [Pc.step] using hafter) hbefore
  | await_cas =>
    by_cases h0 : f.v = 0
    · simp [Pc.step, sync_val_compare_and_swap, h0]
    · simp [Pc.step, sync_val_compare_and_swap, h0] at hafter
      exact absurd hafter hbefore
  | await_wait => exact absurd (by simpa [Pc.step] using hafter) hbefore
  | query_load => exact absurd (by simpa [Pc.step] using hafter) hbefore
  | reset_cas =>
    by_cases h1 : f.v = 1
    · simp [Pc.step, sync_bool_compare_and_swap, h1] at hafter
    · simp [Pc.step, sync_bool_compare_and_swap, h1] at hafter
      exact absurd hafter hbefore
  | returned r => exact absurd (by simpa [Pc.step] using hafter) hbefore
  | finished => exact absurd (by simpa [Pc.step] using hafter) hbefore

/-- C17: an atomic step that changes the word from another value to UNSET_PARKED is the
compare-and-swap of `xshmfence_await`, the word was UNSET, and the next step of
that call is `futex_wait`.  So no step of trigger, query or reset does it, and
in a system of interleaved calls an action that changes the word to
UNSET_PARKED is such a step of an await call. -/
theorem only_await_parks (pc : Pc) (o : Oracle) (f : xshmfence)
    (hafter : (pc.step o f).2.1.v = UNSET_PARKED) (hbefore : f.v ≠ UNSET_PARKED) :
    pc = Pc.await_cas ∧ f.v = UNSET ∧ (pc.step o f).1 = Pc.await_wait ∧
      (pc.step o f).2.2 = some (Event.cas UNSET 0 UNSET_PARKED) ∧
      (∀ (s : System) (a : Action), s.fence = f → (s.act a).fence.v = UNSET_PARKED →
        ∃ i u, a = Action.step i u ∧ s.calls[i]? = some Pc.await_cas) := by
  obtain ⟨h1, h2, h3, h4⟩ := step_parks pc o f hafter hbefore
  refine ⟨h1, h2, h3, h4, ?_⟩
  intro s a hs ha
  cases a with
  | call op =>
    rw [← hs] at hbefore
    exact absurd ha hbefore
  | step i u =>
    cases hi : s.calls[i]? with
    | none =>
      rw [act_step_none s i u hi] at ha
      rw [← hs] at hbefore
      exact absurd ha hbefore
    | some q =>
      rw [act_step_some s i u q hi] at ha
      rw [← hs] at hbefore
      exact ⟨i, u, rfl, by rw [hi, (step_parks q u s.fence ha hbefore).1]⟩

/-- Witness of C17: the compare-and-swap of an await call on an UNSET fence. -/
theorem only_await_parks_witness :
    Pc.await_cas = Pc.await_cas ∧ (⟨0⟩ : xshmfence).v = UNSET ∧
      (Pc.await_cas.step ⟨0, ⟨0, 0⟩⟩ ⟨0⟩).1 = Pc.await_wait ∧
      (Pc.await_cas.step ⟨0, ⟨0, 0⟩⟩ ⟨0⟩).2.2 = some (Event.cas UNSET 0 UNSET_PARKED) ∧
      (∀ (s : System) (a : Action), s.fence = ⟨0⟩ → (s.act a).fence.v = UNSET_PARKED →
        ∃ i u, a = Action.step i u ∧ s.calls[i]? = some Pc.await_cas) :=
  only_await_parks Pc.await_cas ⟨0, ⟨0, 0⟩⟩ ⟨0⟩ (by decide) (by decide)

/-! ## Calls that fail -/

/-- C19: from UNSET, UNSET_PARKED or SET, the fence after `xshmfence_trigger` is SET and
query returns 1 whether trigger returned 0 or -1.  When the word was
UNSET_PARKED and `futex_wake` fails, trigger returns -1 after it has stored
SET: the store is in its trace before the wake. -/
theorem failed_trigger_still_sets (wake : Int) (f : xshmfence)
    (hv : f.v = UNSET ∨ f.v = UNSET_PARKED ∨ f.v = SET) :
    (xshmfence_trigger wake f).fence.v = SET ∧
      (xshmfence_query (xshmfence_trigger wake f).fence).ret = 1 ∧
      ((xshmfence_trigger wake f).ret = 0 ∨ (xshmfence_trigger wake f).ret = -1) ∧
      (f.v = UNSET_PARKED → wake < 0 →
        (xshmfence_trigger wake f).ret = -1 ∧
          (xshmfence_trigger wake f).trace =
            [Event.cas UNSET_PARKED 0 1, Event.store SET, Event.wake wake]) := by
  have hf : (xshmfence_trigger wake f).fence.v = 1 := by
    rw [trigger_fence]
    rcases hv with h | h | h <;> simp [h, UNSET, UNSET_PARKED, SET]
  refine ⟨hf, by rw [query_ret, hf]; rfl, ?_, ?_⟩
  · rw [trigger_ret]
    by_cases h : f.v = -1 ∧ wake < 0 <;> simp [h]
  · intro hp hw
    have hp1 : f.v = -1 := hp
    rw [trigger_ret, trigger_trace]
    simp [hp1, hw, UNSET_PARKED, SET]

/-- Witness of C19: a parked fence and a wake call that fails. -/
theorem failed_trigger_still_sets_witness :
    (xshmfence_trigger (-1) ⟨-1⟩).fence.v = SET ∧
      (xshmfence_query (xshmfence_trigger (-1) ⟨-1⟩).fence).ret = 1 ∧
      (xshmfence_trigger (-1) ⟨-1⟩).ret = -1 ∧
      (xshmfence_trigger (-1) ⟨-1⟩).trace =
        [Event.cas UNSET_PARKED 0 1, Event.store SET, Event.wake (-1)] :=
  ⟨(failed_trigger_still_sets (-1) ⟨-1⟩ (Or.inr (Or.inl rfl))).1,
    (failed_trigger_still_sets (-1) ⟨-1⟩ (Or.inr (Or.inl rfl))).2.1,
    (failed_trigger_still_sets (-1) ⟨-1⟩ (Or.inr (Or.inl rfl))).2.2.2 rfl (by decide)⟩

/-- C20: called on an UNSET fence with a `futex_wait` that fails with an errno other than
`EWOULDBLOCK`, `xshmfence_await` returns -1 and leaves the word UNSET_PARKED: its
only write is the compare-and-swap from UNSET, never undone.  The caller has
returned, so it is not parked; yet the next trigger observes UNSET_PARKED,
stores SET and calls `futex_wake`. -/
theorem failed_await_leaves_parked (w : WaitOutcome) (ws : List WaitOutcome) (wake : Int)
    (f : xshmfence) (hf : f.v = UNSET) (hr : w.ret ≠ 0) (he : w.errno ≠ EWOULDBLOCK) :
    (xshmfence_await (w :: ws) f).ret = some (-1) ∧
      (xshmfence_await (w :: ws) f).fence = ⟨UNSET_PARKED⟩ ∧
      (xshmfence_await (w :: ws) f).trace =
        [Event.cas UNSET 0 (-1), Event.wait (-1) w] ∧
      (xshmfence_trigger wake (xshmfence_await (w :: ws) f).fence).trace =
        [Event.cas UNSET_PARKED 0 1, Event.store SET, Event.wake wake] ∧
      (xshmfence_trigger wake (xshmfence_await (w :: ws) f).fence).fence.v = SET := by
  have h0 : f.v = 0 := hf
  have h1 : f.v ≠ 1 := by
    rw [h0]
    decide
  rw [await_cons_fatal w ws f h1 hr he]
  have hfence : (sync_val_compare_and_swap f 0 (-1)).2 = ⟨-1⟩ := by
    simp [sync_val_compare_and_swap, h0]
  rw [hfence, h0]
  refine ⟨rfl, rfl, rfl, ?_, ?_⟩
  · rw [trigger_trace]
    simp [UNSET_PARKED, SET]
  · rw [trigger_fence]
    simp [SET]

/-- Witness of C20: an UNSET fence, a wait failing with errno 22 (`EINVAL`), then a
trigger whose wake call finds nobody to wake. -/
theorem failed_await_leaves_parked_witness :
    (xshmfence_await [⟨-1, 22⟩] ⟨0⟩).ret = some (-1) ∧
      (xshmfence_await [⟨-1, 22⟩] ⟨0⟩).fence = ⟨UNSET_PARKED⟩ ∧
      (xshmfence_await [⟨-1, 22⟩] ⟨0⟩).trace =
        [Event.cas UNSET 0 (-1), Event.wait (-1) ⟨-1, 22⟩] ∧
      (xshmfence_trigger 0 (xshmfence_await [⟨-1, 22⟩] ⟨0⟩).fence).trace =
        [Event.cas UNSET_PARKED 0 1, Event.store SET, Event.wake 0] ∧
      (xshmfence_trigger 0 (xshmfence_await [⟨-1, 22⟩] ⟨0⟩).fence).fence.v = SET :=
  failed_await_leaves_parked ⟨-1, 22⟩ [] 0 ⟨0⟩ rfl (by decide) (by decide)

/-! ## Allocating and mapping the segment -/

/-- C13 (the code departs from the claim): with `O_TMPFILE` available, `open` returning
descriptor 3 and `ftruncate` failing, `xshmfence_alloc_shm` returns 3, not -1,
and the object behind it is still empty.  In general the returned value does
not depend on what `ftruncate` returned. -/
theorem alloc_ignores_ftruncate :
    xshmfence_alloc_shm ⟨true, 3, 0, -1⟩ =
      (3, [SysCall.open_tmpfile 3, SysCall.ftruncate 3 sizeof_xshmfence (-1)]) ∧
    objectSize (xshmfence_alloc_shm ⟨true, 3, 0, -1⟩).2 = 0 ∧
    (xshmfence_alloc_shm ⟨false, 0, 5, -1⟩).1 = 5 ∧
    objectSize (xshmfence_alloc_shm ⟨false, 0, 5, -1⟩).2 = 0 ∧
    (∀ (t : Bool) (o m r1 r2 : Int),
      (xshmfence_alloc_shm ⟨t, o, m, r1⟩).1 = (xshmfence_alloc_shm ⟨t, o, m, r2⟩).1) := by
  refine ⟨by decide, by decide, by decide, by decide, ?_⟩
  intro t o m r1 r2
  unfold xshmfence_alloc_shm
  by_cases h1 : t = false ∨ o < 0
  · by_cases h2 : m < 0 <;> simp [h1, h2]
  · simp [h1]

/-- C14: when `mmap` returns `MAP_FAILED`, `xshmfence_map_shm` returns the null pointer and
closes `fd` once; when `mmap` returns anything else, it returns that address
and makes no `close` call. -/
theorem map_closes_on_failure (mapped fd : Int) :
    (mapped = MAP_FAILED →
      (xshmfence_map_shm mapped fd).1 = 0 ∧
        (xshmfence_map_shm mapped fd).2.count (SysCall.close fd) = 1 ∧
        (xshmfence_map_shm mapped fd).2 =
          [SysCall.mmap sizeof_xshmfence fd MAP_FAILED, SysCall.close fd]) ∧
    (mapped ≠ MAP_FAILED →
      (xshmfence_map_shm mapped fd).1 = mapped ∧
        (∀ d : Int, SysCall.close d ∉ (xshmfence_map_shm mapped fd).2) ∧
        (xshmfence_map_shm mapped fd).2 = [SysCall.mmap sizeof_xshmfence fd mapped]) := by
  constructor
  · intro h
    simp [xshmfence_map_shm, h, List.count_cons]
  · intro h
    simp [xshmfence_map_shm, h]

/-- Witness of C14: descriptor 7, once with a failing `mmap` and once with one that
returns address 4096. -/
theorem map_closes_on_failure_witness :
    ((xshmfence_map_shm (-1) 7).1 = 0 ∧
        (xshmfence_map_shm (-1) 7).2.count (SysCall.close 7) = 1 ∧
        (xshmfence_map_shm (-1) 7).2 =
          [SysCall.mmap sizeof_xshmfence 7 MAP_FAILED, SysCall.close 7]) ∧
    ((xshmfence_map_shm 4096 7).1 = 4096 ∧
        (∀ d : Int, SysCall.close d ∉ (xshmfence_map_shm 4096 7).2) ∧
        (xshmfence_map_shm 4096 7).2 = [SysCall.mmap sizeof_xshmfence 7 4096]) :=
  ⟨(map_closes_on_failure (-1) 7).1 rfl, (map_closes_on_failure 4096 7).2 (by decide)⟩

/-! ## No wake-up is lost -/

/-- Replacing the entry at `i` keeps every member that is not that entry, or that
equals the new entry. -/
theorem mem_set_of_mem {α : Type} (l : List α) (i : Nat) (p p' q : α)
    (hq : q ∈ l) (hi : l[i]? = some p) (h : q ≠ p ∨ q = p') : q ∈ l.set i p' := by
  have hlt : i < l.length := (List.getElem?_eq_some.mp hi).1
  rcases h with hne | heq
  · obtain ⟨j, hj⟩ := List.getElem?_of_mem hq
    have hij : i ≠ j := by
      intro hij
      rw [hij] at hi
      rw [hi] at hj
      exact hne (Option.some.inj hj).symm
    have : (l.set i p')[j]? = some q := by
      rw [List.getElem?_set_ne hij]
      exact hj
    exact List.getElem?_mem this
  · rw [heq]
    exact List.mem_set l i hlt p'

/-- A party that resumes is not parked afterwards. -/
theorem resume_not_parked (w : WaitOutcome) (f : xshmfence) (p : Party) :
    (p.resume w f).parked = false := by
  unfold Party.resume
  by_cases h : p.parked = true
  · simp [h]
  · simp [h]

/-- A step other than the store of trigger keeps a word that is UNSET_PARKED; the
store of trigger leads to the wake step. -/
theorem step_keeps_parked_word (o : Oracle) (f : xshmfence) (pc : Pc) (hf : f.v = -1) :
    (pc.step o f).2.1.v = -1 ∨ (pc.step o f).1 = Pc.trigger_wake := by
  cases pc with
  | trigger_store => exact Or.inr rfl
  | trigger_cas => exact Or.inl (by simp [Pc.step, sync_val_compare_and_swap, hf])
  | trigger_wake => exact Or.inl (by simp [Pc.step, hf])
  | await_cas => exact Or.inl (by simp [Pc.step, sync_val_compare_and_swap, hf])
  | await_wait => exact Or.inl (by simp [Pc.step, hf])
  | query_load => exact Or.inl (by simp [Pc.step, hf])
  | reset_cas => exact Or.inl (by simp [Pc.step, sync_bool_compare_and_swap, hf])
  | returned r => exact Or.inl (by simp [Pc.step, hf])
  | finished => exact Or.inl (by simp [Pc.step, hf])

/-- The two facts behind "no wake-up is lost" survive when a party that is neither
parked nor at its wake step is replaced by a party that is not parked, provided
a word that was UNSET_PARKED stays so or the new party stands at its wake step. -/
theorem wake_owed_set (s : FutexSystem) (i : Nat) (p p' : Party) (f' : xshmfence)
    (hK : ∀ q ∈ s.parties, q.parked = true → q.pc = Pc.await_wait)
    (hJ : (∃ q ∈ s.parties, q.parked = true) →
      s.fence.v = -1 ∨ ∃ q ∈ s.parties, q.pc = Pc.trigger_wake ∧ q.parked = false)
    (hi : s.parties[i]? = some p)
    (hp : p.pc ≠ Pc.trigger_wake ∨ p.parked = true) (hp' : p'.parked = false)
    (hf : s.fence.v = -1 → f'.v = -1 ∨ p'.pc = Pc.trigger_wake) :
    (∀ q ∈ s.parties.set i p', q.parked = true → q.pc = Pc.await_wait) ∧
    ((∃ q ∈ s.parties.set i p', q.parked = true) →
      f'.v = -1 ∨ ∃ q ∈ s.parties.set i p', q.pc = Pc.trigger_wake ∧ q.parked = false) := by
  have hlt : i < s.parties.length := (List.getElem?_eq_some.mp hi).1
  have hold : ∀ q ∈ s.parties.set i p', q.parked = true → q ∈ s.parties := by
    intro q hq hpar
    rcases List.mem_or_eq_of_mem_set hq with h | h
    · exact h
    · rw [h, hp'] at hpar
      exact absurd hpar (by decide)
  refine ⟨fun q hq hpar => hK q (hold q hq hpar) hpar, ?_⟩
  rintro ⟨q, hq, hpar⟩
  rcases hJ ⟨q, hold q hq hpar, hpar⟩ with hv | ⟨t, ht, htpc, htpar⟩
  · rcases hf hv with h | h
    · exact Or.inl h
    · exact Or.inr ⟨p', List.mem_set _ i hlt p', h, hp'⟩
  · refine Or.inr ⟨t, mem_set_of_mem _ i p p' t ht hi (Or.inl ?_), htpc, htpar⟩
    intro htp
    rcases hp with h | h
    · exact h (htp ▸ htpc)
    · rw [htp, h] at htpar
      exact absurd htpar (by decide)

/-- Writing back the entry that is already at `i` changes nothing. -/
theorem set_same {α : Type} (l : List α) :
    ∀ (i : Nat) (p : α), l[i]? = some p → l.set i p = l := by
  induction l with
  | nil =>
    intro i p _
    rfl
  | cons a l ih =>
    intro i p h
    cases i with
    | zero =>
      simp at h
      simp [h]
    | succ n =>
      simp at h
      simp [ih n p h]

/-- The step of a parked party: none. -/
theorem stepParty_parked (s : FutexSystem) (i : Nat) (p : Party) (hpar : p.parked = true) :
    s.stepParty i p = s := by
  simp [FutexSystem.stepParty, hpar]

/-- The step of a party at `futex_wait` while the word is UNSET_PARKED: it parks. -/
theorem stepParty_park (s : FutexSystem) (i : Nat) (p : Party) (hpar : p.parked = false)
    (hpc : p.pc = Pc.await_wait) (hv : s.fence.v = -1) :
    s.stepParty i p = ⟨s.fence, s.parties.set i ⟨Pc.await_wait, true⟩⟩ := by
  simp [FutexSystem.stepParty, hpar, hpc, hv]

/-- The step of a party at `futex_wait` while the word is not UNSET_PARKED: the wait
fails with `EWOULDBLOCK` and the party is back at its compare-and-swap. -/
theorem stepParty_wouldblock (s : FutexSystem) (i : Nat) (p : Party)
    (hpar : p.parked = false) (hpc : p.pc = Pc.await_wait) (hv : s.fence.v ≠ -1) :
    s.stepParty i p = ⟨s.fence, s.parties.set i ⟨Pc.await_cas, false⟩⟩ := by
  simp [FutexSystem.stepParty, hpar, hpc, hv, Pc.step, EWOULDBLOCK]

/-- The step of a party at `futex_wake`: the party returns 0 and every party resumes. -/
theorem stepParty_wake (s : FutexSystem) (i : Nat) (p : Party) (hpar : p.parked = false)
    (hpc : p.pc = Pc.trigger_wake) :
    s.stepParty i p =
      ⟨s.fence, (s.parties.set i ⟨Pc.returned 0, false⟩).map (Party.resume ⟨0, 0⟩ s.fence)⟩ := by
  have hn : ¬ ((List.countP (fun q => q.parked) s.parties : Nat) : Int) < 0 := by omega
  simp [FutexSystem.stepParty, hpar, hpc, Pc.step, hn]

/-- The step of a party at any other place: the step of `Pc.step`. -/
theorem stepParty_plain (s : FutexSystem) (i : Nat) (p : Party) (hpar : p.parked = false)
    (h1 : p.pc ≠ Pc.await_wait) (h2 : p.pc ≠ Pc.trigger_wake) :
    s.stepParty i p =
      ⟨(p.pc.step ⟨0, ⟨0, 0⟩⟩ s.fence).2.1,
        s.parties.set i ⟨(p.pc.step ⟨0, ⟨0, 0⟩⟩ s.fence).1, false⟩⟩ := by
  unfold FutexSystem.stepParty
  cases hpc : p.pc <;> simp_all

/-- One action maintains the two facts behind "no wake-up is lost": every parked party
stands at `futex_wait`, and if a party is parked then the word is UNSET_PARKED or
some party that is not parked stands at its wake step. -/
theorem act_keeps_wake_owed (s : FutexSystem) (a : FutexAction)
    (hK : ∀ q ∈ s.parties, q.parked = true → q.pc = Pc.await_wait)
    (hJ : (∃ q ∈ s.parties, q.parked = true) →
      s.fence.v = -1 ∨ ∃ q ∈ s.parties, q.pc = Pc.trigger_wake ∧ q.parked = false) :
    (∀ q ∈ (s.act a).parties, q.parked = true → q.pc = Pc.await_wait) ∧
    ((∃ q ∈ (s.act a).parties, q.parked = true) →
      (s.act a).fence.v = -1 ∨
        ∃ q ∈ (s.act a).parties, q.pc = Pc.trigger_wake ∧ q.parked = false) := by
  cases a with
  | call op =>
    have hold : ∀ q ∈ s.parties ++ [⟨op.entry, false⟩], q.parked = true → q ∈ s.parties := by
      intro q hq hpar
      rcases List.mem_append.mp hq with h | h
      · exact h
      · simp at h
        simp [h] at hpar
    refine ⟨fun q hq hpar => hK q (hold q hq hpar) hpar, ?_⟩
    rintro ⟨q, hq, hpar⟩
    rcases hJ ⟨q, hold q hq hpar, hpar⟩ with hv | ⟨t, ht, h⟩
    · exact Or.inl hv
    · exact Or.inr ⟨t, List.mem_append_left _ ht, h⟩
  | step i =>
    simp only [FutexSystem.act]
    cases hi : s.parties[i]? with
    | none => exact ⟨hK, hJ⟩
    | some p =>
      simp only []
      by_cases hpar : p.parked = true
      · rw [stepParty_parked s i p hpar]
        exact ⟨hK, hJ⟩
      · have hpar' : p.parked = false := by simpa using hpar
        by_cases hw : p.pc = Pc.await_wait
        · by_cases hv : s.fence.v = -1
          · rw [stepParty_park s i p hpar' hw hv]
            refine ⟨?_, fun _ => Or.inl hv⟩
            intro q hq hqpar
            rcases List.mem_or_eq_of_mem_set hq with h | h
            · exact hK q h hqpar
            · rw [h]
          · rw [stepParty_wouldblock s i p hpar' hw hv]
            exact wake_owed_set s i p ⟨Pc.await_cas, false⟩ s.fence hK hJ hi
              (Or.inl (by rw [hw]; decide)) rfl (fun h => Or.inl h)
        · by_cases ht : p.pc = Pc.trigger_wake
          · rw [stepParty_wake s i p hpar' ht]
            have hnone : ∀ q ∈ (s.parties.set i ⟨Pc.returned 0, false⟩).map
                (Party.resume ⟨0, 0⟩ s.fence), q.parked = false := by
              intro q hq
              obtain ⟨r, _, hr⟩ := List.mem_map.mp hq
              rw [← hr]
              exact resume_not_parked _ _ r
            refine ⟨?_, ?_⟩
            · intro q hq hqpar
              rw [hnone q hq] at hqpar
              exact absurd hqpar (by decide)
            · rintro ⟨q, hq, hqpar⟩
              rw [hnone q hq] at hqpar
              exact absurd hqpar (by decide)
          · rw [stepParty_plain s i p hpar' hw ht]
            exact wake_owed_set s i p _ _ hK hJ hi (Or.inl ht) rfl
              (fun h => step_keeps_parked_word _ s.fence p.pc h)
  | interrupt i w =>
    simp only [FutexSystem.act]
    cases hi : s.parties[i]? with
    | none => exact ⟨hK, hJ⟩
    | some p =>
      simp only []
      by_cases hpar : p.parked = true
      · exact wake_owed_set s i p _ s.fence hK hJ hi (Or.inr hpar)
          (resume_not_parked w s.fence p) (fun h => Or.inl h)
      · have hres : p.resume w s.fence = p := by simp [Party.resume, hpar]
        rw [hres, set_same s.parties i p hi]
        exact ⟨hK, hJ⟩

/-- Every schedule maintains the two facts. -/
theorem exec_keeps_wake_owed (as : List FutexAction) :
    ∀ s : FutexSystem,
      (∀ q ∈ s.parties, q.parked = true → q.pc = Pc.await_wait) →
      ((∃ q ∈ s.parties, q.parked = true) →
        s.fence.v = -1 ∨ ∃ q ∈ s.parties, q.pc = Pc.trigger_wake ∧ q.parked = false) →
      (∀ q ∈ (s.exec as).parties, q.parked = true → q.pc = Pc.await_wait) ∧
      ((∃ q ∈ (s.exec as).parties, q.parked = true) →
        (s.exec as).fence.v = -1 ∨
          ∃ q ∈ (s.exec as).parties, q.pc = Pc.trigger_wake ∧ q.parked = false) := by
  induction as with
  | nil =>
    intro s hK hJ
    exact ⟨hK, hJ⟩
  | cons a as ih =>
    intro s hK hJ
    obtain ⟨h1, h2⟩ := act_keeps_wake_owed s a hK hJ
    exact ih (s.act a) h1 h2

/-- C18: start from an UNSET fence with no call in progress and let any number of
trigger, await, query and reset calls run, their atomic steps interleaved in
any order, with `futex_wait` parking its caller only if the word is
UNSET_PARKED at the call, `futex_wake` releasing every parked caller, and waits
that may also be cut short by signals.  In every state reached, every parked
party is an await call inside `futex_wait`, and if some party is parked while
the word is not UNSET_PARKED then some trigger call stands between its store of
SET and its `futex_wake`: the wake-up is still owed, not lost. -/
theorem no_lost_wakeup (as : List FutexAction) :
    (∀ q ∈ ((FutexSystem.mk ⟨UNSET⟩ []).exec as).parties,
      q.parked = true → q.pc = Pc.await_wait) ∧
    ((∃ q ∈ ((FutexSystem.mk ⟨UNSET⟩ []).exec as).parties, q.parked = true) →
      ((FutexSystem.mk ⟨UNSET⟩ []).exec as).fence.v ≠ UNSET_PARKED →
      ∃ q ∈ ((FutexSystem.mk ⟨UNSET⟩ []).exec as).parties,
        q.pc = Pc.trigger_wake ∧ q.parked = false) := by
  have h0K : ∀ q ∈ (FutexSystem.mk ⟨UNSET⟩ []).parties,
      q.parked = true → q.pc = Pc.await_wait := by
    intro q hq
    simp at hq
  have h0J : (∃ q ∈ (FutexSystem.mk ⟨UNSET⟩ []).parties, q.parked = true) →
      (FutexSystem.mk ⟨UNSET⟩ []).fence.v = -1 ∨
        ∃ q ∈ (FutexSystem.mk ⟨UNSET⟩ []).parties,
          q.pc = Pc.trigger_wake ∧ q.parked = false := by
    rintro ⟨q, hq, _⟩
    simp at hq
  obtain ⟨hK, hJ⟩ := exec_keeps_wake_owed as (FutexSystem.mk ⟨UNSET⟩ []) h0K h0J
  refine ⟨hK, ?_⟩
  intro hpar hv
  rcases hJ hpar with h | h
  · exact absurd h hv
  · exact h

/-- Witness of C18: a waiter parks on the fence, then a trigger observes UNSET_PARKED and
stores SET; before its wake call the waiter is parked on a SET word, and the
trigger stands at its wake step. -/
theorem no_lost_wakeup_witness :
    ((FutexSystem.mk ⟨UNSET⟩ []).exec
      [FutexAction.call Op.await, FutexAction.step 0, FutexAction.step 0,
        FutexAction.call Op.trigger, FutexAction.step 1, FutexAction.step 1]) =
      ⟨⟨SET⟩, [⟨Pc.await_wait, true⟩, ⟨Pc.trigger_wake, false⟩]⟩ ∧
    ∃ q ∈ ((FutexSystem.mk ⟨UNSET⟩ []).exec
      [FutexAction.call Op.await, FutexAction.step 0, FutexAction.step 0,
        FutexAction.call Op.trigger, FutexAction.step 1, FutexAction.step 1]).parties,
      q.pc = Pc.trigger_wake ∧ q.parked = false :=
  ⟨by decide,
    (no_lost_wakeup
      [FutexAction.call Op.await, FutexAction.step 0, FutexAction.step 0,
        FutexAction.call Op.trigger, FutexAction.step 1, FutexAction.step 1]).2
      ⟨⟨Pc.await_wait, true⟩, by decide, rfl⟩ (by decide)⟩

/-! ## One trigger releases every parked waiter -/

end Xshmfence
